import Mathlib

/-!
# Verification of the command-dispatch proxy (`pkg/proxy/proxy.go`)

A shallow embedding of the HTTP proxy of `greenmission/vehicle-command`:

* the keyed serialization lock (`lockVIN` / `unlockVIN`) as a transition system
  whose steps are the atomic operations of `sync.Map` and of channels;
* the request handlers (`ServeHTTP`, `handleVehicleCommand`,
  `loadVehicleAndCommandFromRequest`, `extractCommandAction`, `forwardRequest`,
  `writeJSONError`) as pure functions that thread the proxy state, the response
  writer and the request, and that log every call made on the lock, on the
  vehicle facade and on the cloud relay.

Outcomes of collaborators that live outside the proxy (account resolution, the
vehicle, the JSON decoder, the relay) are inputs of the model.
-/

namespace VehicleCommand

/-! ## Constants (`proxy.go` lines 24-29) and HTTP status codes -/

def maxRequestBodyBytes : Nat := 512
def vinLength : Nat := 17
def proxyProtocolVersion : String := "tesla-http-proxy/1.0.0"

def StatusOK : Nat := 200
def StatusBadRequest : Nat := 400
def StatusForbidden : Nat := 403
def StatusNotFound : Nat := 404
def StatusMethodNotAllowed : Nat := 405
def StatusInternalServerError : Nat := 500
def StatusBadGateway : Nat := 502
def StatusServiceUnavailable : Nat := 503
def StatusGatewayTimeout : Nat := 504

/-- The reason phrase `http.StatusText(code)` for the codes the proxy uses;
the empty string for an unknown code, as in `net/http`. -/
def StatusText (code : Nat) : String :=
  if code = 200 then "OK"
  else if code = 400 then "Bad Request"
  else if code = 403 then "Forbidden"
  else if code = 404 then "Not Found"
  else if code = 405 then "Method Not Allowed"
  else if code = 500 then "Internal Server Error"
  else if code = 502 then "Bad Gateway"
  else if code = 503 then "Service Unavailable"
  else if code = 504 then "Gateway Timeout"
  else ""

/-! ## The keyed serialization lock as a transition system

`p.vinLock` is a `sync.Map` from VIN to a wake channel.  Every caller runs
`lockVIN(vin)`, its critical section, and `unlockVIN(vin)` once.  A channel is
named by the caller that created it with `make(chan bool, 1)`; nothing is ever
sent on a channel, so a receive completes only once the channel is closed. -/

/-- Control points of one caller. -/
inductive PC where
  /-- Before `lock := make(chan bool, 1)`. -/
  | start
  /-- At the head of the `for` loop, about to run `LoadOrStore(vin, lock)`. -/
  | loop
  /-- In the `select`, waiting on the loaded channel `obj` or on `ctx.Done()`. -/
  | wait (obj : Nat)
  /-- `lockVIN` returned `ctx.Err()`. -/
  | failed
  /-- `lockVIN` returned `nil`; the caller is in its critical section and has
  not called `unlockVIN` yet. -/
  | critical
  /-- Inside `unlockVIN`, about to run `p.vinLock.Load(vin)`. -/
  | unlockLoad
  /-- Inside `unlockVIN`, about to run `p.vinLock.Delete(vin)`. -/
  | unlockDelete (obj : Nat)
  /-- Inside `unlockVIN`, about to run `close(obj)`. -/
  | unlockClose (obj : Nat)
  /-- `unlockVIN` panicked with "called unlock without owning mutex". -/
  | panicked
  /-- `unlockVIN` returned. -/
  | done
  deriving DecidableEq, Repr

/-- The shared lock table, the channels and the control point of every caller. -/
structure LockState where
  /-- `p.vinLock`: the channel stored for a VIN, if any. -/
  vinLock : String → Option Nat
  /-- Whether a channel has been closed. -/
  closed : Nat → Bool
  /-- The control point of each caller. -/
  pc : Nat → PC

/-- Every caller is about to call `lockVIN`; the table is empty. -/
def LockState.init : LockState :=
  { vinLock := fun _ => none, closed := fun _ => false, pc := fun _ => PC.start }

/-- One atomic step of caller `t`, whose VIN is `vinOf t`.  `ctxDone` tells
whether `ctx.Done()` is ready and chosen by the `select`. -/
def LockState.step (vinOf : Nat → String) (s : LockState) (t : Nat) (ctxDone : Bool) :
    LockState :=
  match s.pc t with
  | PC.start => { s with pc := Function.update s.pc t PC.loop }
  | PC.loop =>
    -- obj, loaded := p.vinLock.LoadOrStore(vin, lock)
    match s.vinLock (vinOf t) with
    | some obj => { s with pc := Function.update s.pc t (PC.wait obj) }
    | none =>
      { s with vinLock := Function.update s.vinLock (vinOf t) (some t)
               pc := Function.update s.pc t PC.critical }
  | PC.wait obj =>
    if ctxDone then { s with pc := Function.update s.pc t PC.failed }
    else if s.closed obj then { s with pc := Function.update s.pc t PC.loop }
    else s
  | PC.failed => s
  | PC.critical => { s with pc := Function.update s.pc t PC.unlockLoad }
  | PC.unlockLoad =>
    -- obj, ok := p.vinLock.Load(vin)
    match s.vinLock (vinOf t) with
    | none => { s with pc := Function.update s.pc t PC.panicked }
    | some obj => { s with pc := Function.update s.pc t (PC.unlockDelete obj) }
  | PC.unlockDelete obj =>
    { s with vinLock := Function.update s.vinLock (vinOf t) none
             pc := Function.update s.pc t (PC.unlockClose obj) }
  | PC.unlockClose obj =>
    { s with closed := Function.update s.closed obj true
             pc := Function.update s.pc t PC.done }
  | PC.panicked => s
  | PC.done => s

/-- The state after a schedule: a list of (caller, `ctxDone`) choices. -/
def LockState.run (vinOf : Nat → String) : LockState → List (Nat × Bool) → LockState
  | s, [] => s
  | s, (t, d) :: rest => LockState.run vinOf (LockState.step vinOf s t d) rest

/-- Caller `t` is between a successful return of `lockVIN(vin)` and its own
call of `unlockVIN(vin)`. -/
def LockState.holds (vinOf : Nat → String) (s : LockState) (t : Nat) (vin : String) : Prop :=
  s.pc t = PC.critical ∧ vinOf t = vin

/-- The control points at which a caller owns the table entry of its VIN: from
the successful `LoadOrStore` up to its own `Delete`. -/
def PC.owns : PC → Bool
  | PC.critical => true
  | PC.unlockLoad => true
  | PC.unlockDelete _ => true
  | _ => false

/-- The invariant behind mutual exclusion: a caller that owns the entry of its
VIN finds its own channel there. -/
def LockState.Inv (vinOf : Nat → String) (s : LockState) : Prop :=
  ∀ t, (s.pc t).owns = true → s.vinLock (vinOf t) = some t

/-! ### `unlockVIN` as one sequential call (`proxy.go` lines 77-85) -/

/-- The lock table and the channels, as one call of `unlockVIN` sees them. -/
structure LockTable where
  vinLock : String → Option Nat
  closed : Nat → Bool

/-- How a call ends: it returns, or it panics. -/
inductive Outcome (α : Type) where
  | returned (a : α)
  | panicked (message : String) (a : α)

/-- `unlockVIN`: panic when the VIN has no entry, else delete the entry and
close its channel.  Either way the resulting table is reported. -/
def unlockVIN (tbl : LockTable) (vin : String) : Outcome LockTable :=
  match tbl.vinLock vin with
  | none => Outcome.panicked "called unlock without owning mutex" tbl
  | some obj =>
    Outcome.returned
      { vinLock := Function.update tbl.vinLock vin none
        closed := Function.update tbl.closed obj true }

/-! ## Errors

A Go `error` value is known to the proxy only through `err.Error()`, the
comparisons with the two sentinels, `errors.As(err, &httpErr)` and
`protocol.IsNominalError(err)`; a model error records exactly these. -/

/-- The two sentinel errors the proxy compares with. -/
inductive Sentinel where
  /-- The variable `ErrCommandUseRESTAPI` of package `proxy`. -/
  | ErrCommandUseRESTAPI
  /-- The variable `protocol.ErrProtocolNotSupported`. -/
  | ErrProtocolNotSupported
  deriving DecidableEq, Repr

structure GoError where
  /-- The text `err.Error()`. -/
  msg : String
  /-- The sentinel this error is equal to, if any. -/
  sentinel : Option Sentinel
  /-- The field `httpErr.Code` when `errors.As(err, &httpErr)` succeeds for
  `*inet.HttpError`. -/
  httpCode : Option Nat
  /-- Whether `protocol.IsNominalError(err)`. -/
  isNominal : Bool
  deriving DecidableEq, Repr

/-- The test `err == ErrCommandUseRESTAPI`. -/
def GoError.isUseRESTAPI (e : GoError) : Bool :=
  e.sentinel == some Sentinel.ErrCommandUseRESTAPI

/-- The test `err == protocol.ErrProtocolNotSupported`. -/
def GoError.isProtocolNotSupported (e : GoError) : Bool :=
  e.sentinel == some Sentinel.ErrProtocolNotSupported

/-- An error made by `fmt.Errorf` or `errors.New`: only its text. -/
def GoError.plain (msg : String) : GoError :=
  { msg := msg, sentinel := none, httpCode := none, isNominal := false }

/-- The value `&inet.HttpError{Code: code, Message: message}`. -/
def GoError.HttpError (code : Nat) (message : String) : GoError :=
  { msg := message, sentinel := none, httpCode := some code, isNominal := false }

/-- How a handler call ends: it returns its `error` result, or it panics. -/
inductive Return where
  | err (e : Option GoError)
  | panic (message : String)
  deriving DecidableEq, Repr

/-! ## Strings (`strings.HasPrefix`, `strings.CutPrefix`, `strings.Split`) -/

/-- The Go `len(s)`: the number of bytes of `s`. -/
def len (s : String) : Nat := s.utf8ByteSize

/-- The Go `strings.HasPrefix(s, pre)`. -/
def HasPrefix (s pre : String) : Bool := pre.toList.isPrefixOf s.toList

/-- The Go `strings.CutPrefix(s, pre)`: the rest of `s` when `s` starts with
`pre`. -/
def CutPrefix (s pre : String) : Option String :=
  if pre.toList.isPrefixOf s.toList then some (String.mk (s.toList.drop pre.toList.length))
  else none

/-- Cut a character list at every occurrence of `sep`. -/
def splitOnChar (sep : Char) : List Char → List (List Char)
  | [] => [[]]
  | c :: cs =>
    if c = sep then [] :: splitOnChar sep cs
    else
      match splitOnChar sep cs with
      | [] => [[c]]
      | seg :: rest => (c :: seg) :: rest

/-- The Go `strings.Split(s, sep)` for a one-character separator. -/
def Split (s : String) (sep : Char) : List String :=
  (splitOnChar sep s.toList).map String.mk

/-! ## HTTP headers, requests and the response writer -/

/-- A header map `http.Header`: keys with their values.  Keys are stored in
canonical form; every key the proxy passes is canonical already. -/
structure Header where
  entries : List (String × List String)
  deriving DecidableEq, Repr

/-- The Go `h.Values(key)`. -/
def Header.Values (h : Header) (key : String) : List String :=
  match h.entries.lookup key with
  | some vs => vs
  | none => []

/-- The Go `h.Get(key)`: the first value, or the empty string. -/
def Header.Get (h : Header) (key : String) : String :=
  (h.Values key).headD ""

/-- The Go `h.Del(key)`. -/
def Header.Del (h : Header) (key : String) : Header :=
  { entries := h.entries.filter (fun kv => kv.1 ≠ key) }

/-- The Go `h.Set(key, value)`. -/
def Header.Set (h : Header) (key value : String) : Header :=
  { entries := (h.Del key).entries ++ [(key, [value])] }

/-- The Go `h.Add(key, value)`. -/
def Header.Add (h : Header) (key value : String) : Header :=
  { entries := (h.Del key).entries ++ [(key, h.Values key ++ [value])] }

/-- The Go `outHeader[name] = values`. -/
def Header.assign (h : Header) (key : String) (values : List String) : Header :=
  { entries := (h.Del key).entries ++ [(key, values)] }

/-- An inbound `*http.Request`.  `Body` is the unread rest of the body stream:
reading the stream consumes it. -/
structure Request where
  Method : String
  /-- The field `req.URL.Path`. -/
  Path : String
  /-- The field `req.URL.RawQuery`. -/
  RawQuery : String
  Header : Header
  Body : List Nat
  RemoteAddr : String
  deriving DecidableEq, Repr

/-- The request handed to `client.Do` by `forwardRequest`. -/
structure ProxyRequest where
  Method : String
  Scheme : String
  Host : String
  Path : String
  RawQuery : String
  Header : Header
  Body : List Nat
  deriving DecidableEq, Repr

/-- A JSON value, as far as the proxy produces one. -/
inductive JSON where
  | null
  | bool (b : Bool)
  | str (s : String)
  | obj (fields : List (String × JSON))

/-- The member `name` of a JSON object. -/
def JSON.get (v : JSON) (name : String) : Option JSON :=
  match v with
  | JSON.obj fields => fields.lookup name
  | _ => none

/-- The struct `carResponse` (lines 106-109). -/
structure carResponse where
  Result : Bool
  Reason : String

set_option linter.dupNamespace false in
/-- The struct `Response` (lines 100-104); `Response` is `nil` or a
`*carResponse`. -/
structure Response where
  Response : Option carResponse
  Error : String
  ErrDetails : String

/-- The encoding `json.Marshal` of a `carResponse`: one member per field, named
by the field's `json` tag. -/
def carResponse.marshal (c : carResponse) : JSON :=
  JSON.obj [("result", JSON.bool c.Result), ("string", JSON.str c.Reason)]

/-- The encoding `json.Marshal(&reply)` of a `Response`. -/
def Response.marshal (r : VehicleCommand.Response) : JSON :=
  JSON.obj
    [("response", match r.Response with
        | none => JSON.null
        | some c => c.marshal),
     ("error", JSON.str r.Error),
     ("error_description", JSON.str r.ErrDetails)]

/-- One `Write` on the response body. -/
inductive Chunk where
  /-- The bytes `json.Marshal` gives for `v`, followed by a newline. -/
  | json (v : JSON)
  /-- The text `s` followed by a newline. -/
  | line (s : String)
  /-- Bytes copied from the relay's answer. -/
  | raw (b : List Nat)

/-- An `http.ResponseWriter`. -/
structure ResponseWriter where
  /-- The map `w.Header()`. -/
  header : Header
  /-- The status code sent, once the header is written. -/
  status : Option Nat
  /-- The headers as they were when the status was sent. -/
  sentHeader : Header
  body : List Chunk

/-- A fresh writer. -/
def ResponseWriter.new : ResponseWriter :=
  { header := { entries := [] }, status := none, sentHeader := { entries := [] }, body := [] }

/-- The call `w.WriteHeader(code)`: the first call sends the status and the
headers, a later one is ignored. -/
def ResponseWriter.WriteHeader (w : ResponseWriter) (code : Nat) : ResponseWriter :=
  match w.status with
  | some _ => w
  | none => { w with status := some code, sentHeader := w.header }

/-- The call `w.Write(chunk)`: sends status 200 first if no status was sent. -/
def ResponseWriter.Write (w : ResponseWriter) (c : Chunk) : ResponseWriter :=
  let w1 := w.WriteHeader StatusOK
  { w1 with body := w1.body ++ [c] }

/-- The function `writeJSONError` (lines 111-142).  `json.Marshal` cannot fail
on a `Response`, so its error branch is left out. -/
def writeJSONError (w : ResponseWriter) (code : Nat) (err : Option GoError) : ResponseWriter :=
  let (code1, jsonBytes) : Nat × Chunk :=
    match err with
    | none =>
      (code, Chunk.json (Response.marshal
        { Response := none, Error := StatusText code, ErrDetails := "" }))
    | some e =>
      match e.httpCode with
      | some c => (c, Chunk.line e.msg)
      | none =>
        if e.isNominal then
          -- Response came from the car as opposed to Tesla's servers
          (code, Chunk.json (Response.marshal
            { Response := some { Result := false, Reason := e.msg },
              Error := "", ErrDetails := "" }))
        else
          (code, Chunk.json (Response.marshal
            { Response := none, Error := e.msg, ErrDetails := "" }))
  let w1 := w.WriteHeader code1
  let w2 := { w1 with header := w1.header.Add "Content-Type" "application/json" }
  w2.Write jsonBytes

/-! ## Collaborators and the environment of one request -/

/-- An `*account.Account`, as far as the proxy reads it. -/
structure Account where
  Host : String
  deriving DecidableEq, Repr

/-- Modelled from the spec: the type `RequestParameters` is declared in a file
of package `proxy` other than `proxy.go`; the spec describes
the body as an "optional JSON object of command parameters".  The zero value
has no members. -/
structure RequestParameters where
  members : List (String × String)
  deriving DecidableEq, Repr

/-- The functions the proxy calls in other packages; their results depend only
on their arguments. -/
structure World where
  /-- The call `account.New(token, proxyProtocolVersion)`. -/
  accountNew : String → String → Except GoError Account
  /-- The call `json.Unmarshal(body, &params)`: the decoded parameters, or
  `none` when the body is not valid JSON for them. -/
  Unmarshal : List Nat → Option RequestParameters
  /-- The call `ExtractCommandAction(ctx, command, params)`: its error, or
  `none` when it returns an action. -/
  ExtractCommandAction : String → RequestParameters → Option GoError
  /-- The call `net.SplitHostPort(addr)`. -/
  SplitHostPort : String → Except GoError (String × String)

/-- The answer of the cloud relay to `client.Do`. -/
structure UpstreamResponse where
  StatusCode : Nat
  Header : Header
  Body : List Nat

/-- A failure of `client.Do`; `urlTimeout` tells whether the error is a
`*url.Error` whose `Timeout()` holds. -/
structure RelayFailure where
  err : GoError
  urlTimeout : Bool

/-- What the world outside the proxy does during one request. -/
structure Env where
  /-- Whether the deadline of `ctx` passes while `p.lockVIN(ctx, vin)` waits. -/
  lockTimeout : Bool
  /-- The failure of `io.ReadAll(req.Body)`, with the bytes left unread. -/
  ReadAll : Option (GoError × List Nat)
  /-- Whether `acct.GetVehicle` returns a non-nil `*vehicle.Vehicle`. -/
  GetVehicleCar : Bool
  /-- The error returned by `acct.GetVehicle`. -/
  GetVehicleErr : Option GoError
  /-- The result of `car.Connect(ctx)`. -/
  Connect : Option GoError
  /-- The result of `car.StartSession(ctx, nil)`. -/
  StartSession : Option GoError
  /-- The result of `commandToExecuteFunc(car)`. -/
  Command : Option GoError
  /-- The error of `http.NewRequestWithContext`. -/
  NewRequest : Option GoError
  /-- The result of `client.Do(proxyReq)`. -/
  Do : Except RelayFailure UpstreamResponse

/-- The error `context.DeadlineExceeded`: what `ctx.Err()` is once the
deadline of a context made by `context.WithTimeout` has passed. -/
def DeadlineExceeded : GoError := GoError.plain "context deadline exceeded"

/-- The result of `p.lockVIN(ctx, vin)` (lines 59-75): `nil` when the entry is
stored, `ctx.Err()` when the deadline passes first. -/
def Env.lockVIN (env : Env) : Option GoError :=
  if env.lockTimeout then some DeadlineExceeded else none

/-- The calls a request makes on the VIN lock, on the vehicle facade and on
the cloud relay, in the order they happen. -/
inductive Event where
  /-- `p.lockVIN` returned `nil`: the lock is acquired. -/
  | lockVIN (vin : String)
  | unlockVIN (vin : String)
  | GetVehicle (vin : String)
  | Connect (vin : String)
  | StartSession (vin : String)
  /-- The call `commandToExecuteFunc(car)`. -/
  | Command (vin : String) (command : String)
  | UpdateCachedSessions (vin : String)
  | Disconnect (vin : String)
  /-- The call `client.Do(proxyReq)`: the request goes to the cloud relay. -/
  | Do (proxyReq : ProxyRequest)
  deriving DecidableEq, Repr

/-- A call on the vehicle facade. -/
def Event.isFacade : Event → Bool
  | Event.Connect _ => true
  | Event.StartSession _ => true
  | Event.Command _ _ => true
  | Event.UpdateCachedSessions _ => true
  | Event.Disconnect _ => true
  | _ => false

/-- A call on the VIN lock, on the account's vehicle resolution or on the
vehicle facade: everything a request does locally. -/
def Event.isLocal : Event → Bool
  | Event.Do _ => false
  | _ => true

/-- The proxy's state across requests: the keys of `p.unsupported`. -/
structure Proxy where
  unsupported : String → Bool

/-- The function `New`: no VIN is marked. -/
def New : Proxy := { unsupported := fun _ => false }

/-- The method `markUnsupportedVIN` (lines 49-51). -/
def Proxy.markUnsupportedVIN (p : Proxy) (vin : String) : Proxy :=
  { unsupported := Function.update p.unsupported vin true }

/-- The method `isNotSupported` (lines 53-56). -/
def Proxy.isNotSupported (p : Proxy) (vin : String) : Bool :=
  p.unsupported vin

/-- Every marked VIN is 17 bytes long and has no slash: it was a segment of a
request path. -/
def Proxy.WellMarked (p : Proxy) : Prop :=
  ∀ v, p.unsupported v = true → len v = vinLength ∧ '/' ∉ v.toList

/-- What a handler leaves behind: the proxy, the response writer, the request
(whose body stream may have been read), the calls made, and how it ended. -/
structure Exec where
  p : Proxy
  w : ResponseWriter
  req : Request
  events : List Event
  ret : Return

/-! ## The handlers -/

/-- The function `getAccount` (lines 31-37). -/
def getAccount (W : World) (req : Request) : Except GoError Account :=
  match CutPrefix (req.Header.Get "Authorization") "Bearer " with
  | none => Except.error (GoError.plain "client did not provide an OAuth token")
  | some token => W.accountNew token proxyProtocolVersion

/-- The variable `connectionHeaders` (lines 144-150). -/
def connectionHeaders : List String :=
  ["Proxy-Connection", "Keep-Alive", "Transfer-Encoding", "Te", "Upgrade"]

/-- The method `forwardRequest` (lines 154-210). -/
def forwardRequest (W : World) (env : Env) (p : Proxy) (host : String)
    (w : ResponseWriter) (req : Request) : Exec :=
  match env.NewRequest with
  | some err =>
    { p := p, w := writeJSONError w StatusBadRequest (some err), req := req, events := [],
      ret := Return.err none }
  | none =>
    -- proxyReq.Header = req.Header.Clone(), then remove per-hop headers
    let hdr := connectionHeaders.foldl Header.Del req.Header
    match W.SplitHostPort req.RemoteAddr with
    | Except.error err =>
      { p := p, w := writeJSONError w StatusBadRequest (some err), req := req, events := [],
        ret := Return.err none }
    | Except.ok (clientIP, _) =>
      let previous := req.Header.Values "X-Forwarded-For"
      let hdr1 :=
        if previous.length = 0 then hdr.Add "X-Forwarded-For" clientIP
        else hdr.Set "X-Forwarded-For" (String.intercalate ", " (previous ++ [clientIP]))
      let proxyReq : ProxyRequest :=
        { Method := req.Method, Scheme := "https", Host := host, Path := req.Path,
          RawQuery := req.RawQuery, Header := hdr1, Body := req.Body }
      -- client.Do reads the body stream to its end
      let req1 := { req with Body := [] }
      match env.Do with
      | Except.error f =>
        let code := if f.urlTimeout then StatusGatewayTimeout else StatusBadGateway
        { p := p, w := writeJSONError w code (some f.err), req := req1,
          events := [Event.Do proxyReq], ret := Return.err none }
      | Except.ok resp =>
        let respHeader := connectionHeaders.foldl Header.Del resp.Header
        let outHeader :=
          respHeader.entries.foldl (fun h kv => h.assign kv.1 kv.2) w.header
        let w1 := { w with header := outHeader }
        let w2 := w1.WriteHeader resp.StatusCode
        { p := p, w := w2.Write (Chunk.raw resp.Body), req := req1,
          events := [Event.Do proxyReq], ret := Return.err none }

/-- The function `extractCommandAction` (lines 316-329): the error it returns
(`none` when it returns an action), and the request after the read. -/
def extractCommandAction (W : World) (env : Env) (req : Request) (command : String) :
    Option GoError × Request :=
  match env.ReadAll with
  | some (err, rest) => (some err, { req with Body := rest })
  | none =>
    let body := req.Body
    let req1 := { req with Body := [] }
    if body.length > 0 then
      match W.Unmarshal body with
      | none =>
        (some (GoError.HttpError StatusBadRequest
          "invalid JSON: Error occurred while parsing request parameters"), req1)
      | some params => (W.ExtractCommandAction command params, req1)
    else
      (W.ExtractCommandAction command { members := [] }, req1)

/-- What `loadVehicleAndCommandFromRequest` returns: whether `car` is non-nil,
and `err`; with the writer, the request and the calls made. -/
structure Loaded where
  w : ResponseWriter
  req : Request
  events : List Event
  car : Bool
  err : Option GoError

/-- The method `loadVehicleAndCommandFromRequest` (lines 293-314). -/
def loadVehicleAndCommandFromRequest (W : World) (env : Env) (w : ResponseWriter)
    (req : Request) (command vin : String) : Loaded :=
  if req.Method ≠ "POST" then
    { w := writeJSONError w StatusMethodNotAllowed none, req := req, events := [],
      car := false, err := some (GoError.plain "Wrong http method") }
  else
    match extractCommandAction W env req command with
    | (some err, req1) => { w := w, req := req1, events := [], car := false, err := some err }
    | (none, req1) =>
      -- car, err := acct.GetVehicle(ctx, vin, p.commandKey, p.sessions)
      if env.GetVehicleErr.isSome || !env.GetVehicleCar then
        { w := writeJSONError w StatusInternalServerError env.GetVehicleErr, req := req1,
          events := [Event.GetVehicle vin], car := false, err := env.GetVehicleErr }
      else
        { w := w, req := req1, events := [Event.GetVehicle vin], car := true, err := none }

/-- The text written on success (line 289), without the newline that
`fmt.Fprintln` appends. -/
def successBody : String :=
  "\x7b\"response\":\x7b\"result\":true,\"reason\":\"\"\x7d\x7d"

/-- Lines 276-290 of `handleVehicleCommand`: the command and the answer. -/
def runCommand (env : Env) (p : Proxy) (w : ResponseWriter) (req : Request)
    (command vin : String) : Exec :=
  match env.Command with
  | some err =>
    if err.isUseRESTAPI then
      { p := p, w := w, req := req, events := [Event.Command vin command],
        ret := Return.err (some err) }
    else if err.isNominal then
      { p := p, w := writeJSONError w StatusOK (some err), req := req,
        events := [Event.Command vin command], ret := Return.err (some err) }
    else
      { p := p, w := writeJSONError w StatusInternalServerError (some err), req := req,
        events := [Event.Command vin command], ret := Return.err (some err) }
  | none =>
    let w1 := { w with header := w.header.Add "Content-Type" "application/json" }
    { p := p, w := w1.Write (Chunk.line successBody), req := req,
      events := [Event.Command vin command], ret := Return.err none }

/-- Lines 266-290 of `handleVehicleCommand`: the session, then the command;
`defer car.UpdateCachedSessions(p.sessions)` is registered once the session has
started and runs when the function leaves. -/
def runSession (W : World) (env : Env) (p : Proxy) (acct : Account) (w : ResponseWriter)
    (req : Request) (command vin : String) : Exec :=
  match env.StartSession with
  | some err =>
    if err.isProtocolNotSupported then
      let p1 := p.markUnsupportedVIN vin
      let f := forwardRequest W env p1 acct.Host w req
      { f with events := Event.StartSession vin :: f.events, ret := Return.err (some err) }
    else
      { p := p, w := writeJSONError w StatusInternalServerError (some err), req := req,
        events := [Event.StartSession vin], ret := Return.err (some err) }
  | none =>
    let r := runCommand env p w req command vin
    { r with events := Event.StartSession vin :: r.events ++ [Event.UpdateCachedSessions vin] }

/-- Lines 255-290 of `handleVehicleCommand`: what runs while the VIN lock is
held; `defer car.Disconnect()` is registered once `Connect` has succeeded.
Calling `Connect` on a nil `*vehicle.Vehicle` dereferences nil. -/
def runLocked (W : World) (env : Env) (p : Proxy) (acct : Account) (w : ResponseWriter)
    (req : Request) (command vin : String) : Exec :=
  let l := loadVehicleAndCommandFromRequest W env w req command vin
  match l.err with
  | some err => { p := p, w := l.w, req := l.req, events := l.events, ret := Return.err (some err) }
  | none =>
    if !l.car then
      { p := p, w := l.w, req := l.req, events := l.events,
        ret := Return.panic "invalid memory address or nil pointer dereference" }
    else
      match env.Connect with
      | some err =>
        { p := p, w := writeJSONError l.w StatusInternalServerError (some err), req := l.req,
          events := l.events ++ [Event.Connect vin], ret := Return.err (some err) }
      | none =>
        let r := runSession W env p acct l.w l.req command vin
        { r with events := l.events ++ Event.Connect vin :: r.events ++ [Event.Disconnect vin] }

/-- The method `handleVehicleCommand` (lines 243-291); `defer p.unlockVIN(vin)`
is registered once the lock is acquired and runs last. -/
def handleVehicleCommand (W : World) (env : Env) (p : Proxy) (acct : Account)
    (w : ResponseWriter) (req : Request) (command vin : String) : Exec :=
  match env.lockVIN with
  | some err =>
    { p := p, w := writeJSONError w StatusServiceUnavailable (some err), req := req,
      events := [], ret := Return.err (some err) }
  | none =>
    let r := runLocked W env p acct w req command vin
    { r with events := Event.lockVIN vin :: r.events ++ [Event.unlockVIN vin] }

/-- Whether `handleVehicleCommand` returned `ErrCommandUseRESTAPI`. -/
def Return.isUseRESTAPI : Return → Bool
  | Return.err (some e) => e.isUseRESTAPI
  | _ => false

/-- Lines 233-235 of `ServeHTTP`: run the command locally and relay it when
the handler returned `ErrCommandUseRESTAPI`.  A panic of the handler ends the
request. -/
def serveCommand (W : World) (env : Env) (p : Proxy) (acct : Account) (w : ResponseWriter)
    (req : Request) (command vin : String) : Exec :=
  let r := handleVehicleCommand W env p acct w req command vin
  if r.ret.isUseRESTAPI then
    let f := forwardRequest W env r.p acct.Host r.w r.req
    { f with events := r.events ++ f.events }
  else r

/-- The method `ServeHTTP` (lines 212-241).  The field `ret` of the result
tells how the last handler it called ended. -/
def ServeHTTP (W : World) (env : Env) (p : Proxy) (w : ResponseWriter) (req : Request) : Exec :=
  match getAccount W req with
  | Except.error err =>
    { p := p, w := writeJSONError w StatusForbidden (some err), req := req, events := [],
      ret := Return.err none }
  | Except.ok acct =>
    if HasPrefix req.Path "/api/1/vehicles/" then
      let path := Split req.Path '/'
      if path.length = 7 ∧ path.getD 5 "" = "command" then
        let command := path.getD 6 ""
        let vin := path.getD 4 ""
        if len vin ≠ vinLength then
          { p := p,
            w := writeJSONError w StatusNotFound
              (some (GoError.plain "expected 17-character VIN in path (do not user Fleet API ID)")),
            req := req, events := [], ret := Return.err none }
        else if p.isNotSupported vin then
          forwardRequest W env p acct.Host w req
        else
          serveCommand W env p acct w req command vin
      else
        forwardRequest W env p acct.Host w req
    else
      forwardRequest W env p acct.Host w req

/-- The proxy after serving a list of requests one after the other, each with
its own environment and a fresh response writer. -/
def serveAll (W : World) : Proxy → List (Request × Env) → Proxy
  | p, [] => p
  | p, (req, env) :: rest => serveAll W (ServeHTTP W env p ResponseWriter.new req).p rest

/-! ## Concrete inputs used to run the model -/

/-- The VIN of the spec's scenarios. -/
def sampleVIN : String := "5YJ3E1EA7PF000001"

/-- A world in which every token resolves to one account, a body decodes when
it starts with an opening and ends with a closing brace, every command name is
known, and one remote address parses. -/
def sampleWorld : World :=
  { accountNew := fun _ _ => Except.ok { Host := "fleet-api.example.com" }
    Unmarshal := fun body =>
      if body.head? = some 123 ∧ body.getLast? = some 125 then some { members := [] } else none
    ExtractCommandAction := fun _ _ => none
    SplitHostPort := fun addr =>
      if addr = "203.0.113.7:4711" then Except.ok ("203.0.113.7", "4711")
      else Except.error (GoError.plain "missing port in address") }

/-- An environment in which every step succeeds and the relay answers 200. -/
def sampleEnv : Env :=
  { lockTimeout := false, ReadAll := none, GetVehicleCar := true, GetVehicleErr := none,
    Connect := none, StartSession := none, Command := none, NewRequest := none,
    Do := Except.ok { StatusCode := 200, Header := { entries := [] }, Body := [] } }

/-- The request of the spec's scenario: lock the sample vehicle. -/
def sampleRequest : Request :=
  { Method := "POST", Path := "/api/1/vehicles/5YJ3E1EA7PF000001/command/lock", RawQuery := "",
    Header := { entries := [("Authorization", ["Bearer token"])] }, Body := [],
    RemoteAddr := "203.0.113.7:4711" }

/-- An error equal to `protocol.ErrProtocolNotSupported`. -/
def sampleNotSupported : GoError :=
  { msg := "vehicle does not support protocol", sentinel := some Sentinel.ErrProtocolNotSupported,
    httpCode := none, isNominal := false }

/-- An error equal to `ErrCommandUseRESTAPI`. -/
def sampleUseRESTAPI : GoError :=
  { msg := "command requires using the REST API",
    sentinel := some Sentinel.ErrCommandUseRESTAPI, httpCode := none, isNominal := false }

/-- A nominal error: the vehicle rejects the command. -/
def sampleNominal : GoError :=
  { msg := "already locked", sentinel := none, httpCode := none, isNominal := true }

/-- A hard failure of the transport. -/
def sampleHard : GoError := GoError.plain "connection reset"

/-- A request for a second vehicle. -/
def otherRequest : Request :=
  { sampleRequest with Path := "/api/1/vehicles/5YJ3E1EA7PF000002/command/honk_horn" }

/-- A body of 602 bytes that decodes: an opening brace, 600 spaces and a
closing brace. -/
def oversizedBody : List Nat := 123 :: (List.replicate 600 32 ++ [125])

/-- The sample request with the oversized body. -/
def oversizedRequest : Request := { sampleRequest with Body := oversizedBody }

/-- The sample request with a body that does not decode: a lone opening
brace. -/
def malformedRequest : Request := { sampleRequest with Body := [123] }

/-- A request on the command route whose VIN segment is 16 bytes long. -/
def shortVINRequest : Request :=
  { sampleRequest with Path := "/api/1/vehicles/5YJ3E1EA7PF00000/command/lock" }

/-- The sample request without any header. -/
def anonymousRequest : Request := { sampleRequest with Header := { entries := [] } }

/-- The sample request with a body of two bytes, `{}`. -/
def bodyRequest : Request := { sampleRequest with Body := [123, 125] }

/-- A request that carries per-hop headers and two `X-Forwarded-For` values. -/
def hopRequest : Request :=
  { sampleRequest with
    Path := "/api/1/vehicles"
    Header := { entries := [("Authorization", ["Bearer token"]), ("Keep-Alive", ["timeout=5"]),
      ("X-Forwarded-For", ["198.51.100.1", "198.51.100.2"]), ("Upgrade", ["h2c"])] } }

/-! ## The relayed headers, as the spec words them -/

/-- Reference definition, following the spec: the values of header `key` in
the relayed request are none for a per-hop header (`Proxy-Connection`,
`Keep-Alive`, `Transfer-Encoding`, `Te`, `Upgrade`); for `X-Forwarded-For` a
single value, the client's address when the client sent no `X-Forwarded-For`,
else the client's values in order followed by the client's address, joined
with a comma and a blank; and the client's values for every other header. -/
def relayedHeaderSpec (client : Header) (clientIP : String) (key : String) : List String :=
  if key = "Proxy-Connection" ∨ key = "Keep-Alive" ∨ key = "Transfer-Encoding" ∨ key = "Te" ∨
      key = "Upgrade" then []
  else if key = "X-Forwarded-For" then
    match client.Values "X-Forwarded-For" with
    | [] => [clientIP]
    | v :: vs => [String.intercalate ", " (v :: vs ++ [clientIP])]
  else client.Values key

/-! ## Theorems: the keyed serialization lock -/

theorem LockState.inv_init (vinOf : Nat → String) : LockState.Inv vinOf LockState.init := by
  intro t h
  simp [LockState.init, PC.owns] at h

/-- A step of caller `t` leaves the control point of every other caller alone. -/
theorem LockState.step_pc_of_ne (vinOf : Nat → String) (s : LockState) (t u : Nat) (d : Bool)
    (h : u ≠ t) : (LockState.step vinOf s t d).pc u = s.pc u := by
  unfold LockState.step
  cases s.pc t <;> simp only [] <;> (try split) <;> (try split_ifs) <;>
    simp [Function.update_noteq h]

/-- A step of caller `t` that makes it an owner is the storing `LoadOrStore`,
or `t` was an owner before. -/
theorem LockState.step_owns_self (vinOf : Nat → String) (s : LockState) (t : Nat) (d : Bool)
    (h : ((LockState.step vinOf s t d).pc t).owns = true) :
    (s.pc t = PC.loop ∧ s.vinLock (vinOf t) = none) ∨
      ((s.pc t).owns = true ∧ ∀ obj, s.pc t ≠ PC.unlockDelete obj) := by
  unfold LockState.step at h
  cases hpc : s.pc t <;> simp only [hpc] at h <;> (try split at h) <;> (try split_ifs at h) <;>
    simp_all [PC.owns]

/-- The table after a step of caller `t`: unchanged, or stored by its
`LoadOrStore`, or deleted by its `Delete`. -/
theorem LockState.step_vinLock (vinOf : Nat → String) (s : LockState) (t : Nat) (d : Bool) :
    (LockState.step vinOf s t d).vinLock = s.vinLock ∨
      (s.pc t = PC.loop ∧ s.vinLock (vinOf t) = none ∧
        (LockState.step vinOf s t d).vinLock = Function.update s.vinLock (vinOf t) (some t)) ∨
      ((∃ obj, s.pc t = PC.unlockDelete obj) ∧
        (LockState.step vinOf s t d).vinLock = Function.update s.vinLock (vinOf t) none) := by
  unfold LockState.step
  cases hpc : s.pc t <;> simp only [] <;> (try split) <;> (try split_ifs) <;> simp_all

theorem LockState.inv_step (vinOf : Nat → String) (s : LockState) (t : Nat) (d : Bool)
    (h : LockState.Inv vinOf s) : LockState.Inv vinOf (LockState.step vinOf s t d) := by
  intro u hu
  by_cases hut : u = t
  · subst hut
    rcases LockState.step_owns_self vinOf s u d hu with ⟨hl, hn⟩ | ⟨ho, hnd⟩
    · rcases LockState.step_vinLock vinOf s u d with e | ⟨_, _, e⟩ | ⟨⟨obj, ho⟩, _⟩
      · unfold LockState.step at e ⊢
        simp [hl, hn]
      · rw [e]; simp
      · rw [hl] at ho; cases ho
    · have hv := h u ho
      rcases LockState.step_vinLock vinOf s u d with e | ⟨_, hn, _⟩ | ⟨⟨obj, ho2⟩, _⟩
      · rw [e]; exact hv
      · rw [hv] at hn; cases hn
      · exact absurd ho2 (hnd obj)
  · rw [LockState.step_pc_of_ne vinOf s t u d hut] at hu
    have hv := h u hu
    rcases LockState.step_vinLock vinOf s t d with e | ⟨_, hn, e⟩ | ⟨⟨obj, ho⟩, e⟩
    · rw [e]; exact hv
    · rw [e]
      have hne : vinOf u ≠ vinOf t := by
        intro heq
        rw [heq, hn] at hv
        cases hv
      rw [Function.update_noteq hne]; exact hv
    · rw [e]
      have hot : (s.pc t).owns = true := by rw [ho]; rfl
      have hvt := h t hot
      have hne : vinOf u ≠ vinOf t := by
        intro heq
        rw [heq, hvt] at hv
        exact hut (Option.some.inj hv).symm
      rw [Function.update_noteq hne]; exact hv

theorem LockState.inv_run (vinOf : Nat → String) (sched : List (Nat × Bool)) :
    ∀ s : LockState, LockState.Inv vinOf s → LockState.Inv vinOf (LockState.run vinOf s sched) := by
  induction sched with
  | nil => intro s h; exact h
  | cons a rest ih =>
    intro s h
    obtain ⟨t, d⟩ := a
    exact ih _ (LockState.inv_step vinOf s t d h)

/-- C1. Mutual exclusion per VIN: in every state reachable from the initial
state by any interleaving of the atomic steps of any number of callers, two
callers that are both between a successful return of `lockVIN(vin)` and their
own call of `unlockVIN(vin)` for the same VIN are one and the same caller. -/
theorem lock_mutual_exclusion (vinOf : Nat → String) (sched : List (Nat × Bool))
    (vin : String) (t u : Nat)
    (ht : LockState.holds vinOf (LockState.run vinOf LockState.init sched) t vin)
    (hu : LockState.holds vinOf (LockState.run vinOf LockState.init sched) u vin) :
    t = u := by
  have hinv := LockState.inv_run vinOf sched LockState.init (LockState.inv_init vinOf)
  obtain ⟨htc, htv⟩ := ht
  obtain ⟨huc, huv⟩ := hu
  have h1 := hinv t (by rw [htc]; rfl)
  have h2 := hinv u (by rw [huc]; rfl)
  rw [htv] at h1
  rw [huv, h1] at h2
  exact Option.some.inj h2

theorem lock_mutual_exclusion_witness :
    LockState.holds (fun _ => sampleVIN)
        (LockState.run (fun _ => sampleVIN) LockState.init [(0, false), (1, false), (0, false),
          (1, false)]) 0 sampleVIN ∧
      LockState.holds (fun _ => sampleVIN)
        (LockState.run (fun _ => sampleVIN) LockState.init [(0, false), (1, false), (0, false),
          (1, false)]) 0 sampleVIN ∧
      (0 : Nat) = 0 :=
  ⟨⟨rfl, rfl⟩, ⟨rfl, rfl⟩,
    lock_mutual_exclusion (fun _ => sampleVIN) [(0, false), (1, false), (0, false), (1, false)]
      sampleVIN 0 0 ⟨rfl, rfl⟩ ⟨rfl, rfl⟩⟩

/-- While caller 0 holds the lock of a VIN, caller 1 asking for the same VIN
waits on caller 0's channel; once caller 0 has run `unlockVIN`, caller 1 gets
the lock. -/
theorem lock_handover_example :
    (LockState.run (fun _ => sampleVIN) LockState.init
        [(0, false), (1, false), (0, false), (1, false)]).pc 1 = PC.wait 0 ∧
      (LockState.run (fun _ => sampleVIN) LockState.init
        [(0, false), (1, false), (0, false), (1, false), (0, false), (0, false), (0, false),
          (0, false), (1, false), (1, false)]).pc 1 = PC.critical ∧
      (LockState.run (fun _ => sampleVIN) LockState.init
        [(0, false), (1, false), (0, false), (1, false), (0, false), (0, false), (0, false),
          (0, false), (1, false), (1, false)]).pc 0 = PC.done := by
  refine ⟨?_, ?_, ?_⟩ <;> decide

/-- C8. Release without a holder is fatal: when the lock table has no entry for
the VIN, `unlockVIN` panics (it does not return) and the table and the channels
are as before. -/
theorem unlockVIN_without_holder_panics (tbl : LockTable) (vin : String)
    (h : tbl.vinLock vin = none) :
    unlockVIN tbl vin = Outcome.panicked "called unlock without owning mutex" tbl := by
  unfold unlockVIN
  rw [h]

theorem unlockVIN_without_holder_panics_witness :
    (({ vinLock := fun _ => none, closed := fun _ => false } : LockTable).vinLock sampleVIN = none) ∧
      unlockVIN { vinLock := fun _ => none, closed := fun _ => false } sampleVIN =
        Outcome.panicked "called unlock without owning mutex"
          { vinLock := fun _ => none, closed := fun _ => false } :=
  ⟨rfl, unlockVIN_without_holder_panics _ sampleVIN rfl⟩

/-! ## Lemmas on `strings.Split` and on the route of a request -/

theorem splitOnChar_ne_nil (sep : Char) (cs : List Char) : splitOnChar sep cs ≠ [] := by
  cases cs with
  | nil => simp [splitOnChar]
  | cons c cs =>
    unfold splitOnChar
    split_ifs
    · simp
    · split <;> simp

/-- Splitting at the first separator. -/
theorem splitOnChar_append (sep : Char) (a b : List Char) (h : sep ∉ a) :
    splitOnChar sep (a ++ sep :: b) = a :: splitOnChar sep b := by
  induction a with
  | nil => simp [splitOnChar]
  | cons c a ih =>
    have hc : c ≠ sep := fun e => h (by simp [e])
    have ha : sep ∉ a := fun e => h (by simp [e])
    have e := ih ha
    rw [List.cons_append, splitOnChar, if_neg hc, e]

/-- No segment of a split contains the separator. -/
theorem not_mem_of_mem_splitOnChar (sep : Char) (cs : List Char) :
    ∀ seg ∈ splitOnChar sep cs, sep ∉ seg := by
  induction cs with
  | nil => simp [splitOnChar]
  | cons c cs ih =>
    intro seg hseg
    unfold splitOnChar at hseg
    split_ifs at hseg with hc
    · rcases List.mem_cons.mp hseg with e | e
      · simp [e]
      · exact ih seg e
    · cases hsp : splitOnChar sep cs with
      | nil => exact absurd hsp (splitOnChar_ne_nil sep cs)
      | cons s0 rest =>
        rw [hsp] at hseg ih
        rcases List.mem_cons.mp hseg with e | e
        · rw [e]
          intro hmem
          rcases List.mem_cons.mp hmem with e1 | e1
          · exact hc e1.symm
          · exact ih s0 (by simp) e1
        · exact ih seg (by simp [e])

/-- The segments of the command route for a VIN without a slash. -/
theorem Split_command_route (vin command : String) (h : '/' ∉ vin.toList) :
    Split ("/api/1/vehicles/" ++ vin ++ "/command/" ++ command) '/' =
      ["", "api", "1", "vehicles", vin, "command"] ++
        (splitOnChar '/' command.toList).map String.mk := by
  have e : ("/api/1/vehicles/" ++ vin ++ "/command/" ++ command).toList =
      [] ++ '/' :: (['a', 'p', 'i'] ++ '/' :: (['1'] ++ '/' ::
        (['v', 'e', 'h', 'i', 'c', 'l', 'e', 's'] ++ '/' :: (vin.toList ++ '/' ::
          (['c', 'o', 'm', 'm', 'a', 'n', 'd'] ++ '/' :: command.toList))))) := by
    simp [String.toList]
  unfold Split
  rw [e, splitOnChar_append _ _ _ (by simp), splitOnChar_append _ _ _ (by decide),
    splitOnChar_append _ _ _ (by decide), splitOnChar_append _ _ _ (by decide),
    splitOnChar_append _ _ _ h, splitOnChar_append _ _ _ (by decide)]
  simp [String.toList]

theorem HasPrefix_command_route (rest : String) :
    HasPrefix ("/api/1/vehicles/" ++ rest) "/api/1/vehicles/" = true := by
  unfold HasPrefix
  rw [List.isPrefixOf_iff_prefix]
  simp [String.toList]

/-! ## Lemmas on the proxy state and on the relay path -/

theorem forwardRequest_p (W : World) (env : Env) (p : Proxy) (host : String)
    (w : ResponseWriter) (req : Request) : (forwardRequest W env p host w req).p = p := by
  unfold forwardRequest
  split
  · rfl
  · split
    · rfl
    · split <;> rfl

/-- The relay path makes no call on the lock or on a vehicle. -/
theorem forwardRequest_events (W : World) (env : Env) (p : Proxy) (host : String)
    (w : ResponseWriter) (req : Request) :
    ∀ e ∈ (forwardRequest W env p host w req).events, e.isLocal = false := by
  unfold forwardRequest
  split
  · simp
  · split
    · simp
    · split <;> simp [Event.isLocal]

/-- When the outbound request can be built and the remote address parses, the
relay path sends exactly one request to the cloud relay. -/
theorem forwardRequest_sends (W : World) (env : Env) (p : Proxy) (host : String)
    (w : ResponseWriter) (req : Request) (ip port : String)
    (hn : env.NewRequest = none) (hs : W.SplitHostPort req.RemoteAddr = Except.ok (ip, port)) :
    ∃ proxyReq, (forwardRequest W env p host w req).events = [Event.Do proxyReq] := by
  unfold forwardRequest
  simp only [hn, hs]
  split <;> exact ⟨_, rfl⟩

theorem runCommand_p (env : Env) (p : Proxy) (w : ResponseWriter) (req : Request)
    (command vin : String) : (runCommand env p w req command vin).p = p := by
  unfold runCommand
  split
  · split_ifs <;> rfl
  · rfl

/-- The set of unsupported VINs after the session part of the handler. -/
theorem runSession_p (W : World) (env : Env) (p : Proxy) (acct : Account) (w : ResponseWriter)
    (req : Request) (command vin : String) :
    (runSession W env p acct w req command vin).p =
      match env.StartSession with
      | some err => if err.isProtocolNotSupported then p.markUnsupportedVIN vin else p
      | none => p := by
  unfold runSession
  split
  · split_ifs
    · simp [forwardRequest_p]
    · rfl
  · simp [runCommand_p]

/-- The handler leaves the set of unsupported VINs alone or marks its VIN. -/
theorem handleVehicleCommand_p (W : World) (env : Env) (p : Proxy) (acct : Account)
    (w : ResponseWriter) (req : Request) (command vin : String) :
    (handleVehicleCommand W env p acct w req command vin).p = p ∨
      (handleVehicleCommand W env p acct w req command vin).p = p.markUnsupportedVIN vin := by
  unfold handleVehicleCommand
  split
  · exact Or.inl rfl
  · simp only
    unfold runLocked
    simp only
    split
    · exact Or.inl rfl
    · split_ifs
      · exact Or.inl rfl
      · split
        · exact Or.inl rfl
        · simp only [runSession_p]
          split
          · split_ifs
            · exact Or.inr rfl
            · exact Or.inl rfl
          · exact Or.inl rfl

theorem serveCommand_p (W : World) (env : Env) (p : Proxy) (acct : Account)
    (w : ResponseWriter) (req : Request) (command vin : String) :
    (serveCommand W env p acct w req command vin).p =
      (handleVehicleCommand W env p acct w req command vin).p := by
  unfold serveCommand
  simp only []
  split_ifs
  · simp [forwardRequest_p]
  · rfl

/-- One request leaves the set of unsupported VINs alone, or marks a segment of
its path that is 17 bytes long. -/
theorem ServeHTTP_p (W : World) (env : Env) (p : Proxy) (w : ResponseWriter) (req : Request) :
    (ServeHTTP W env p w req).p = p ∨
      ∃ vin, vin ∈ Split req.Path '/' ∧ len vin = vinLength ∧
        (ServeHTTP W env p w req).p = p.markUnsupportedVIN vin := by
  unfold ServeHTTP
  split
  · exact Or.inl rfl
  · rename_i acct _
    simp only []
    split_ifs with h1 h2 h3 h4
    · exact Or.inl rfl
    · exact Or.inl (forwardRequest_p _ _ _ _ _ _)
    · have hmem : (Split req.Path '/').getD 4 "" ∈ Split req.Path '/' := by
        rw [List.getD_eq_getElem _ _ (by omega)]
        exact List.getElem_mem _
      have hlen : len ((Split req.Path '/').getD 4 "") = vinLength := not_not.mp h3
      rw [serveCommand_p]
      rcases handleVehicleCommand_p W env p acct w req ((Split req.Path '/').getD 6 "")
        ((Split req.Path '/').getD 4 "") with e | e
      · exact Or.inl e
      · exact Or.inr ⟨_, hmem, hlen, e⟩
    · exact Or.inl (forwardRequest_p _ _ _ _ _ _)
    · exact Or.inl (forwardRequest_p _ _ _ _ _ _)

theorem not_mem_of_mem_Split (s seg : String) (h : seg ∈ Split s '/') : '/' ∉ seg.toList := by
  unfold Split at h
  rcases List.mem_map.mp h with ⟨cs, hcs, e⟩
  rw [← e]
  exact not_mem_of_mem_splitOnChar '/' s.toList cs hcs

theorem ServeHTTP_wellMarked (W : World) (env : Env) (p : Proxy) (w : ResponseWriter)
    (req : Request) (h : p.WellMarked) : (ServeHTTP W env p w req).p.WellMarked := by
  rcases ServeHTTP_p W env p w req with e | ⟨vin, hmem, hlen, e⟩
  · rw [e]; exact h
  · rw [e]
    intro v hv
    unfold Proxy.markUnsupportedVIN at hv
    by_cases hvv : v = vin
    · rw [hvv]
      exact ⟨hlen, not_mem_of_mem_Split _ _ hmem⟩
    · simp only [Function.update_noteq hvv] at hv
      exact h v hv

theorem ServeHTTP_mono (W : World) (env : Env) (p : Proxy) (w : ResponseWriter)
    (req : Request) (v : String) (h : p.isNotSupported v = true) :
    (ServeHTTP W env p w req).p.isNotSupported v = true := by
  rcases ServeHTTP_p W env p w req with e | ⟨vin, _, _, e⟩
  · rw [e]; exact h
  · rw [e]
    unfold Proxy.isNotSupported Proxy.markUnsupportedVIN
    by_cases hvv : v = vin
    · rw [hvv]; simp
    · simp only [Function.update_noteq hvv]
      exact h

theorem serveAll_wellMarked (W : World) (reqs : List (Request × Env)) :
    ∀ p : Proxy, p.WellMarked → (serveAll W p reqs).WellMarked := by
  induction reqs with
  | nil => intro p h; exact h
  | cons a rest ih =>
    intro p h
    obtain ⟨req, env⟩ := a
    exact ih _ (ServeHTTP_wellMarked W env p _ req h)

theorem serveAll_mono (W : World) (reqs : List (Request × Env)) (v : String) :
    ∀ p : Proxy, p.isNotSupported v = true → (serveAll W p reqs).isNotSupported v = true := by
  induction reqs with
  | nil => intro p h; exact h
  | cons a rest ih =>
    intro p h
    obtain ⟨req, env⟩ := a
    exact ih _ (ServeHTTP_mono W env p _ req v h)

theorem New_wellMarked : New.WellMarked := by
  intro v hv
  simp [New] at hv

/-- A request on the command route of a marked VIN takes the relay path. -/
theorem ServeHTTP_marked (W : World) (env : Env) (p : Proxy) (w : ResponseWriter)
    (req : Request) (acct : Account) (vin command : String)
    (hm : p.isNotSupported vin = true) (hlen : len vin = vinLength) (hs : '/' ∉ vin.toList)
    (ha : getAccount W req = Except.ok acct)
    (hp : req.Path = "/api/1/vehicles/" ++ vin ++ "/command/" ++ command) :
    ServeHTTP W env p w req = forwardRequest W env p acct.Host w req := by
  unfold ServeHTTP
  rw [ha]
  simp only []
  have hpre : HasPrefix req.Path "/api/1/vehicles/" = true := by
    rw [hp, String.append_assoc, String.append_assoc]
    exact HasPrefix_command_route _
  have hsplit := Split_command_route vin command hs
  rw [← hp] at hsplit
  have h4 : (Split req.Path '/').getD 4 "" = vin := by rw [hsplit]; rfl
  rw [if_pos hpre, h4]
  split_ifs with h1 h2
  · exact absurd hlen h2
  · rfl
  · rfl

/-! ## Theorems: the set of unsupported VINs -/

/-- C2. The unsupported-VIN set is sticky: when a VIN is marked unsupported
after some requests served by a new proxy, it is still marked after any
further requests, and an authenticated request on the command route for that
VIN, whatever the command name, is then handled by `forwardRequest` alone: it
makes no call on the VIN lock or on a vehicle, and it sends one request to the
cloud relay as soon as the outbound request can be built and the remote
address parses. -/
theorem unsupported_vin_sticky (W : World) (before after : List (Request × Env))
    (vin command : String) (env : Env) (w : ResponseWriter) (req : Request) (acct : Account)
    (hm : (serveAll W New before).isNotSupported vin = true)
    (ha : getAccount W req = Except.ok acct)
    (hp : req.Path = "/api/1/vehicles/" ++ vin ++ "/command/" ++ command) :
    (serveAll W (serveAll W New before) after).isNotSupported vin = true ∧
      ServeHTTP W env (serveAll W (serveAll W New before) after) w req =
        forwardRequest W env (serveAll W (serveAll W New before) after) acct.Host w req ∧
      (∀ e ∈ (ServeHTTP W env (serveAll W (serveAll W New before) after) w req).events,
        e.isLocal = false) ∧
      (env.NewRequest = none →
        ∀ ip port, W.SplitHostPort req.RemoteAddr = Except.ok (ip, port) →
          ∃ proxyReq,
            (ServeHTTP W env (serveAll W (serveAll W New before) after) w req).events =
              [Event.Do proxyReq]) := by
  have hwm : (serveAll W New before).WellMarked := serveAll_wellMarked W before New New_wellMarked
  obtain ⟨hlen, hs⟩ := hwm vin hm
  have hm2 := serveAll_mono W after vin _ hm
  have e := ServeHTTP_marked W env _ w req acct vin command hm2 hlen hs ha hp
  refine ⟨hm2, e, ?_, ?_⟩
  · rw [e]
    exact forwardRequest_events _ _ _ _ _ _
  · intro hn ip port hsp
    rw [e]
    exact forwardRequest_sends W env _ _ w req ip port hn hsp

theorem unsupported_vin_sticky_witness :
    (serveAll sampleWorld New
        [(sampleRequest, { sampleEnv with StartSession := some sampleNotSupported })]).isNotSupported
        sampleVIN = true ∧
      getAccount sampleWorld sampleRequest = Except.ok { Host := "fleet-api.example.com" } ∧
      sampleRequest.Path = "/api/1/vehicles/" ++ sampleVIN ++ "/command/" ++ "lock" ∧
      ((serveAll sampleWorld (serveAll sampleWorld New
          [(sampleRequest, { sampleEnv with StartSession := some sampleNotSupported })])
          [(otherRequest, sampleEnv)]).isNotSupported sampleVIN = true ∧
        ServeHTTP sampleWorld sampleEnv (serveAll sampleWorld (serveAll sampleWorld New
          [(sampleRequest, { sampleEnv with StartSession := some sampleNotSupported })])
          [(otherRequest, sampleEnv)]) ResponseWriter.new sampleRequest =
          forwardRequest sampleWorld sampleEnv (serveAll sampleWorld (serveAll sampleWorld New
            [(sampleRequest, { sampleEnv with StartSession := some sampleNotSupported })])
            [(otherRequest, sampleEnv)]) (Account.mk "fleet-api.example.com").Host
            ResponseWriter.new sampleRequest ∧
        (∀ e ∈ (ServeHTTP sampleWorld sampleEnv (serveAll sampleWorld (serveAll sampleWorld New
            [(sampleRequest, { sampleEnv with StartSession := some sampleNotSupported })])
            [(otherRequest, sampleEnv)]) ResponseWriter.new sampleRequest).events,
          e.isLocal = false) ∧
        (sampleEnv.NewRequest = none →
          ∀ ip port, sampleWorld.SplitHostPort sampleRequest.RemoteAddr = Except.ok (ip, port) →
            ∃ proxyReq,
              (ServeHTTP sampleWorld sampleEnv (serveAll sampleWorld (serveAll sampleWorld New
                [(sampleRequest, { sampleEnv with StartSession := some sampleNotSupported })])
                [(otherRequest, sampleEnv)]) ResponseWriter.new sampleRequest).events =
                [Event.Do proxyReq])) :=
  ⟨by decide, by rfl, by decide,
    unsupported_vin_sticky sampleWorld
      [(sampleRequest, { sampleEnv with StartSession := some sampleNotSupported })]
      [(otherRequest, sampleEnv)] sampleVIN "lock" sampleEnv ResponseWriter.new sampleRequest
      { Host := "fleet-api.example.com" } (by decide) (by rfl) (by decide)⟩

/-! ## Theorems: the shape of the answers -/

theorem splitOnChar_of_not_mem (sep : Char) (cs : List Char) (h : sep ∉ cs) :
    splitOnChar sep cs = [cs] := by
  induction cs with
  | nil => rfl
  | cons c cs ih =>
    have hc : c ≠ sep := fun e => h (by simp [e])
    have hcs : sep ∉ cs := fun e => h (by simp [e])
    rw [splitOnChar, if_neg hc, ih hcs]

/-- A request on the command route for a VIN of 17 bytes that is not marked is
run locally. -/
theorem ServeHTTP_command_route (W : World) (env : Env) (p : Proxy) (w : ResponseWriter)
    (req : Request) (acct : Account) (vin command : String)
    (ha : getAccount W req = Except.ok acct)
    (hp : req.Path = "/api/1/vehicles/" ++ vin ++ "/command/" ++ command)
    (hlen : len vin = vinLength) (hv : '/' ∉ vin.toList) (hc : '/' ∉ command.toList)
    (hm : p.isNotSupported vin = false) :
    ServeHTTP W env p w req = serveCommand W env p acct w req command vin := by
  unfold ServeHTTP
  rw [ha]
  simp only []
  have hpre : HasPrefix req.Path "/api/1/vehicles/" = true := by
    rw [hp, String.append_assoc, String.append_assoc]
    exact HasPrefix_command_route _
  have hsplit := Split_command_route vin command hv
  rw [← hp, splitOnChar_of_not_mem _ _ hc] at hsplit
  have hcmd : String.mk command.toList = command := rfl
  simp only [List.map, hcmd] at hsplit
  rw [if_pos hpre, hsplit]
  simp [hlen, hm]

/-- C3, evaluated on a vehicle that rejects the command as already locked: the
answer has status 200 and an empty `error`, but the member of `response` that
holds the vehicle's message is named `string`; there is no member `reason`. -/
theorem nominal_rejection_reason_is_named_string :
    (ServeHTTP sampleWorld { sampleEnv with Command := some sampleNominal } New
        ResponseWriter.new sampleRequest).w.status = some 200 ∧
      (ServeHTTP sampleWorld { sampleEnv with Command := some sampleNominal } New
        ResponseWriter.new sampleRequest).w.body =
        [Chunk.json (JSON.obj
          [("response", JSON.obj
            [("result", JSON.bool false), ("string", JSON.str "already locked")]),
           ("error", JSON.str ""), ("error_description", JSON.str "")])] ∧
      (JSON.obj [("result", JSON.bool false), ("string", JSON.str "already locked")]).get
        "reason" = none :=
  ⟨rfl, rfl, rfl⟩

/-- C4, refuted on the spec's scenario: every step succeeds, and the body is
the line written at line 289, in which the text `error` does not occur. -/
theorem success_body_has_no_error_member :
    (ServeHTTP sampleWorld sampleEnv New ResponseWriter.new sampleRequest).w.status = some 200 ∧
      (ServeHTTP sampleWorld sampleEnv New ResponseWriter.new sampleRequest).w.body =
        [Chunk.line successBody] ∧
      ¬ ("error".toList <:+: successBody.toList) := by
  refine ⟨rfl, rfl, ?_⟩
  decide

/-- C4, amended: on the command route with valid auth, a VIN of 17 bytes that
is not marked and method POST, when the VIN lock is acquired, the body is read
and decoded, the command name is known, and vehicle resolution, `Connect`,
`StartSession` and the command all succeed, the answer has status 200 and its
body is exactly the line `{"response":{"result":true,"reason":""}}`. -/
theorem success_response_shape (W : World) (env : Env) (p : Proxy) (req : Request)
    (acct : Account) (vin command : String)
    (ha : getAccount W req = Except.ok acct)
    (hp : req.Path = "/api/1/vehicles/" ++ vin ++ "/command/" ++ command)
    (hlen : len vin = vinLength) (hv : '/' ∉ vin.toList) (hc : '/' ∉ command.toList)
    (hm : p.isNotSupported vin = false)
    (hpost : req.Method = "POST")
    (hlock : env.lockVIN = none)
    (hx : (extractCommandAction W env req command).1 = none)
    (hcar : env.GetVehicleCar = true) (hget : env.GetVehicleErr = none)
    (hconn : env.Connect = none) (hsess : env.StartSession = none) (hcmd : env.Command = none) :
    (ServeHTTP W env p ResponseWriter.new req).w.status = some StatusOK ∧
      (ServeHTTP W env p ResponseWriter.new req).w.body = [Chunk.line successBody] ∧
      successBody = "\x7b\"response\":\x7b\"result\":true,\"reason\":\"\"\x7d\x7d" := by
  rw [ServeHTTP_command_route W env p _ req acct vin command ha hp hlen hv hc hm]
  rcases hxe : extractCommandAction W env req command with ⟨e, r⟩
  rw [hxe] at hx
  simp only at hx
  subst hx
  unfold serveCommand handleVehicleCommand runLocked loadVehicleAndCommandFromRequest
  simp only [hlock, hpost, hxe]
  simp [hcar, hget, hconn, runSession, hsess, runCommand, hcmd, Return.isUseRESTAPI,
    ResponseWriter.Write, ResponseWriter.WriteHeader, ResponseWriter.new]
  rfl

/-! ## Theorems: the calls made by `handleVehicleCommand` -/

/-- What `loadVehicleAndCommandFromRequest` did when it returns a vehicle. -/
theorem load_of_car (W : World) (env : Env) (w : ResponseWriter) (req : Request)
    (command vin : String)
    (h : (loadVehicleAndCommandFromRequest W env w req command vin).car = true) :
    (loadVehicleAndCommandFromRequest W env w req command vin).err = none ∧
      (loadVehicleAndCommandFromRequest W env w req command vin).events =
        [Event.GetVehicle vin] := by
  unfold loadVehicleAndCommandFromRequest at h ⊢
  rcases hx : extractCommandAction W env req command with ⟨e, r⟩
  rw [hx] at h
  by_cases hm : req.Method ≠ "POST" <;> cases e <;>
    by_cases hg : (env.GetVehicleErr.isSome || !env.GetVehicleCar) = true <;>
    simp_all

/-- The calls of `loadVehicleAndCommandFromRequest`: none, or `GetVehicle`. -/
theorem load_events (W : World) (env : Env) (w : ResponseWriter) (req : Request)
    (command vin : String) :
    (loadVehicleAndCommandFromRequest W env w req command vin).events = [] ∨
      (loadVehicleAndCommandFromRequest W env w req command vin).events =
        [Event.GetVehicle vin] := by
  unfold loadVehicleAndCommandFromRequest
  rcases hx : extractCommandAction W env req command with ⟨e, r⟩
  by_cases hm : req.Method ≠ "POST" <;> cases e <;>
    by_cases hg : (env.GetVehicleErr.isSome || !env.GetVehicleCar) = true <;>
    simp_all

/-- The handler when the lock is acquired and a vehicle is obtained. -/
theorem handleVehicleCommand_of_car (W : World) (env : Env) (p : Proxy) (acct : Account)
    (w : ResponseWriter) (req : Request) (command vin : String)
    (hlock : env.lockVIN = none)
    (hcar : (loadVehicleAndCommandFromRequest W env w req command vin).car = true) :
    handleVehicleCommand W env p acct w req command vin =
      match env.Connect with
      | some err =>
        { p := p
          w := writeJSONError (loadVehicleAndCommandFromRequest W env w req command vin).w
            StatusInternalServerError (some err)
          req := (loadVehicleAndCommandFromRequest W env w req command vin).req
          events := [Event.lockVIN vin, Event.GetVehicle vin, Event.Connect vin,
            Event.unlockVIN vin]
          ret := Return.err (some err) }
      | none =>
        { runSession W env p acct (loadVehicleAndCommandFromRequest W env w req command vin).w
            (loadVehicleAndCommandFromRequest W env w req command vin).req command vin with
          events := [Event.lockVIN vin, Event.GetVehicle vin, Event.Connect vin] ++
            (runSession W env p acct (loadVehicleAndCommandFromRequest W env w req command vin).w
              (loadVehicleAndCommandFromRequest W env w req command vin).req command vin).events
            ++ [Event.Disconnect vin, Event.unlockVIN vin] } := by
  obtain ⟨herr, hev⟩ := load_of_car W env w req command vin hcar
  unfold handleVehicleCommand runLocked
  simp only [hlock, herr, hcar, hev]
  cases env.Connect <;> simp

/-- The calls of the session part: `StartSession` first, then the relay path
or nothing when the session does not start, else the command and the deferred
`UpdateCachedSessions`. -/
theorem runSession_events (W : World) (env : Env) (p : Proxy) (acct : Account)
    (w : ResponseWriter) (req : Request) (command vin : String) :
    (runSession W env p acct w req command vin).events =
      match env.StartSession with
      | some err =>
        if err.isProtocolNotSupported then
          Event.StartSession vin ::
            (forwardRequest W env (p.markUnsupportedVIN vin) acct.Host w req).events
        else [Event.StartSession vin]
      | none =>
        [Event.StartSession vin, Event.Command vin command, Event.UpdateCachedSessions vin] := by
  unfold runSession
  split
  · split_ifs <;> rfl
  · unfold runCommand
    split
    · split_ifs <;> rfl
    · rfl

/-- C5, refuted when `Connect` fails: the VIN lock is acquired and released and
a vehicle is obtained, but neither `UpdateCachedSessions` nor `Disconnect` is
called. -/
theorem connect_failure_skips_cleanup :
    (loadVehicleAndCommandFromRequest sampleWorld { sampleEnv with Connect := some sampleHard }
        ResponseWriter.new sampleRequest "lock" sampleVIN).car = true ∧
      (handleVehicleCommand sampleWorld { sampleEnv with Connect := some sampleHard } New
        { Host := "fleet-api.example.com" } ResponseWriter.new sampleRequest "lock"
        sampleVIN).events =
        [Event.lockVIN sampleVIN, Event.GetVehicle sampleVIN, Event.Connect sampleVIN,
          Event.unlockVIN sampleVIN] ∧
      Event.Disconnect sampleVIN ∉
        (handleVehicleCommand sampleWorld { sampleEnv with Connect := some sampleHard } New
          { Host := "fleet-api.example.com" } ResponseWriter.new sampleRequest "lock"
          sampleVIN).events ∧
      Event.UpdateCachedSessions sampleVIN ∉
        (handleVehicleCommand sampleWorld { sampleEnv with Connect := some sampleHard } New
          { Host := "fleet-api.example.com" } ResponseWriter.new sampleRequest "lock"
          sampleVIN).events := by
  refine ⟨?_, ?_, ?_, ?_⟩ <;> decide

/-- C5, amended: when the VIN lock is acquired and a vehicle is obtained, the
calls of the handler are, in this order: if `Connect` fails, the lock, vehicle
resolution, `Connect` and the unlock, without any cleanup call; if
`StartSession` fails, the same up to `StartSession`, then only relay calls
(when the error is `ErrProtocolNotSupported`), then `Disconnect` and the
unlock, without `UpdateCachedSessions`; if the session starts, whatever the
command returns (`ErrCommandUseRESTAPI`, a nominal error, a hard error or
`nil`), the command, then `UpdateCachedSessions`, then `Disconnect`, then the
unlock. -/
theorem cleanup_before_unlock (W : World) (env : Env) (p : Proxy) (acct : Account)
    (w : ResponseWriter) (req : Request) (command vin : String)
    (hlock : env.lockVIN = none)
    (hcar : (loadVehicleAndCommandFromRequest W env w req command vin).car = true) :
    match env.Connect, env.StartSession with
    | some _, _ =>
      (handleVehicleCommand W env p acct w req command vin).events =
        [Event.lockVIN vin, Event.GetVehicle vin, Event.Connect vin, Event.unlockVIN vin]
    | none, some _ =>
      ∃ relay : List Event, (∀ e ∈ relay, e.isLocal = false) ∧
        (handleVehicleCommand W env p acct w req command vin).events =
          [Event.lockVIN vin, Event.GetVehicle vin, Event.Connect vin, Event.StartSession vin] ++
            relay ++ [Event.Disconnect vin, Event.unlockVIN vin]
    | none, none =>
      (handleVehicleCommand W env p acct w req command vin).events =
        [Event.lockVIN vin, Event.GetVehicle vin, Event.Connect vin, Event.StartSession vin,
          Event.Command vin command, Event.UpdateCachedSessions vin, Event.Disconnect vin,
          Event.unlockVIN vin] := by
  rw [handleVehicleCommand_of_car W env p acct w req command vin hlock hcar]
  cases hc : env.Connect with
  | some err => rfl
  | none =>
    cases hs : env.StartSession with
    | some err =>
      simp only [runSession_events, hs]
      by_cases hn : err.isProtocolNotSupported = true
      · exact ⟨_, forwardRequest_events W env (p.markUnsupportedVIN vin) acct.Host
          (loadVehicleAndCommandFromRequest W env w req command vin).w
          (loadVehicleAndCommandFromRequest W env w req command vin).req, by simp [hn]⟩
      · exact ⟨[], by simp, by simp [hn]⟩
    | none =>
      simp only [runSession_events, hs]
      rfl

/-- The handler when the lock is acquired and no vehicle is obtained. -/
theorem handleVehicleCommand_of_no_car (W : World) (env : Env) (p : Proxy) (acct : Account)
    (w : ResponseWriter) (req : Request) (command vin : String)
    (hlock : env.lockVIN = none)
    (hcar : (loadVehicleAndCommandFromRequest W env w req command vin).car = false) :
    (handleVehicleCommand W env p acct w req command vin).p = p ∧
      (handleVehicleCommand W env p acct w req command vin).events =
        Event.lockVIN vin ::
          (loadVehicleAndCommandFromRequest W env w req command vin).events ++
            [Event.unlockVIN vin] := by
  unfold handleVehicleCommand runLocked
  simp only [hlock, hcar]
  cases (loadVehicleAndCommandFromRequest W env w req command vin).err <;> simp

/-- The handler when the lock is not acquired. -/
theorem handleVehicleCommand_of_lock_failed (W : World) (env : Env) (p : Proxy) (acct : Account)
    (w : ResponseWriter) (req : Request) (command vin : String) (err : GoError)
    (hlock : env.lockVIN = some err) :
    handleVehicleCommand W env p acct w req command vin =
      { p := p, w := writeJSONError w StatusServiceUnavailable (some err), req := req,
        events := [], ret := Return.err (some err) } := by
  unfold handleVehicleCommand
  simp only [hlock]

/-- Whether `StartSession` is called by the handler. -/
theorem StartSession_mem_events (W : World) (env : Env) (p : Proxy) (acct : Account)
    (w : ResponseWriter) (req : Request) (command vin : String) :
    Event.StartSession vin ∈ (handleVehicleCommand W env p acct w req command vin).events ↔
      env.lockVIN = none ∧
        (loadVehicleAndCommandFromRequest W env w req command vin).car = true ∧
        env.Connect = none := by
  cases hlock : env.lockVIN with
  | some err =>
    rw [handleVehicleCommand_of_lock_failed W env p acct w req command vin err hlock]
    simp
  | none =>
    cases hcar : (loadVehicleAndCommandFromRequest W env w req command vin).car with
    | false =>
      rw [(handleVehicleCommand_of_no_car W env p acct w req command vin hlock hcar).2]
      rcases load_events W env w req command vin with e | e <;> simp [e]
    | true =>
      rw [handleVehicleCommand_of_car W env p acct w req command vin hlock hcar]
      cases hc : env.Connect with
      | some err => simp
      | none =>
        simp only [runSession_events]
        cases env.StartSession with
        | some err => by_cases hn : err.isProtocolNotSupported = true <;> simp [hn]
        | none => simp

theorem markUnsupportedVIN_ne (p : Proxy) (vin : String) (hm : p.isNotSupported vin = false) :
    (p.markUnsupportedVIN vin).unsupported ≠ p.unsupported := by
  intro h
  have h1 := congrFun h vin
  unfold Proxy.isNotSupported at hm
  simp [Proxy.markUnsupportedVIN, hm] at h1

/-- The set of unsupported VINs after the handler: the VIN is marked when
`StartSession` is called and returns `ErrProtocolNotSupported`, and nothing
changes otherwise. -/
theorem handleVehicleCommand_p_cases (W : World) (env : Env) (p : Proxy) (acct : Account)
    (w : ResponseWriter) (req : Request) (command vin : String) :
    ((Event.StartSession vin ∈ (handleVehicleCommand W env p acct w req command vin).events ∧
        ∃ e, env.StartSession = some e ∧ e.isProtocolNotSupported = true) →
      (handleVehicleCommand W env p acct w req command vin).p = p.markUnsupportedVIN vin) ∧
    (¬ (Event.StartSession vin ∈ (handleVehicleCommand W env p acct w req command vin).events ∧
        ∃ e, env.StartSession = some e ∧ e.isProtocolNotSupported = true) →
      (handleVehicleCommand W env p acct w req command vin).p = p) := by
  rw [StartSession_mem_events]
  cases hlock : env.lockVIN with
  | some err =>
    rw [handleVehicleCommand_of_lock_failed W env p acct w req command vin err hlock]
    simp
  | none =>
    cases hcar : (loadVehicleAndCommandFromRequest W env w req command vin).car with
    | false =>
      rw [(handleVehicleCommand_of_no_car W env p acct w req command vin hlock hcar).1]
      simp
    | true =>
      rw [handleVehicleCommand_of_car W env p acct w req command vin hlock hcar]
      cases hc : env.Connect with
      | some err => simp
      | none =>
        simp only [runSession_p]
        cases env.StartSession with
        | some err => by_cases hn : err.isProtocolNotSupported = true <;> simp [hn]
        | none => simp

/-- C9. A VIN is demoted only by `ErrProtocolNotSupported`: for a handler
called, as `ServeHTTP` does, with a VIN that is not marked, the set of
unsupported VINs changes if and only if `StartSession` is called and returns
`ErrProtocolNotSupported`; then the set is the old one with the request's VIN
added, and the request is passed to `forwardRequest`, whose calls sit between
`StartSession` and the deferred `Disconnect`; in every other case
(`ErrCommandUseRESTAPI`, a nominal or hard error of the command, a failure of
`Connect`, another failure of `StartSession`, or any earlier exit) the set is
unchanged. -/
theorem demoted_only_by_protocol_not_supported (W : World) (env : Env) (p : Proxy)
    (acct : Account) (w : ResponseWriter) (req : Request) (command vin : String)
    (hm : p.isNotSupported vin = false) :
    ((handleVehicleCommand W env p acct w req command vin).p.unsupported ≠ p.unsupported ↔
      (Event.StartSession vin ∈ (handleVehicleCommand W env p acct w req command vin).events ∧
        ∃ e, env.StartSession = some e ∧ e.isProtocolNotSupported = true)) ∧
    ((Event.StartSession vin ∈ (handleVehicleCommand W env p acct w req command vin).events ∧
        ∃ e, env.StartSession = some e ∧ e.isProtocolNotSupported = true) →
      (handleVehicleCommand W env p acct w req command vin).p.unsupported =
          Function.update p.unsupported vin true ∧
        (handleVehicleCommand W env p acct w req command vin).w =
          (forwardRequest W env (p.markUnsupportedVIN vin) acct.Host
            (loadVehicleAndCommandFromRequest W env w req command vin).w
            (loadVehicleAndCommandFromRequest W env w req command vin).req).w ∧
        (handleVehicleCommand W env p acct w req command vin).events =
          [Event.lockVIN vin, Event.GetVehicle vin, Event.Connect vin, Event.StartSession vin] ++
            (forwardRequest W env (p.markUnsupportedVIN vin) acct.Host
              (loadVehicleAndCommandFromRequest W env w req command vin).w
              (loadVehicleAndCommandFromRequest W env w req command vin).req).events ++
            [Event.Disconnect vin, Event.unlockVIN vin]) ∧
    (¬ (Event.StartSession vin ∈ (handleVehicleCommand W env p acct w req command vin).events ∧
        ∃ e, env.StartSession = some e ∧ e.isProtocolNotSupported = true) →
      (handleVehicleCommand W env p acct w req command vin).p.unsupported = p.unsupported) := by
  obtain ⟨hyes, hno⟩ := handleVehicleCommand_p_cases W env p acct w req command vin
  refine ⟨⟨?_, ?_⟩, ?_, ?_⟩
  · intro hne
    by_contra hc
    exact hne (by rw [hno hc])
  · intro hc
    rw [hyes hc]
    exact markUnsupportedVIN_ne p vin hm
  · intro hc
    refine ⟨by rw [hyes hc]; rfl, ?_⟩
    obtain ⟨hmem, e, hs, hn⟩ := hc
    obtain ⟨hlock, hcar, hconn⟩ :=
      (StartSession_mem_events W env p acct w req command vin).mp hmem
    rw [handleVehicleCommand_of_car W env p acct w req command vin hlock hcar]
    simp only [hconn, runSession_events, hs, hn]
    unfold runSession
    simp [hs, hn]
  · intro hc
    rw [hno hc]

/-- No call made while the lock is held is a call of `unlockVIN`. -/
theorem runLocked_events_no_unlock (W : World) (env : Env) (p : Proxy) (acct : Account)
    (w : ResponseWriter) (req : Request) (command vin : String) (v : String) :
    Event.unlockVIN v ∉ (runLocked W env p acct w req command vin).events := by
  have hf : ∀ (q : Proxy) (w1 : ResponseWriter) (r1 : Request),
      Event.unlockVIN v ∉ (forwardRequest W env q acct.Host w1 r1).events := by
    intro q w1 r1 hmem
    have := forwardRequest_events W env q acct.Host w1 r1 _ hmem
    simp [Event.isLocal] at this
  have hl : Event.unlockVIN v ∉
      (loadVehicleAndCommandFromRequest W env w req command vin).events := by
    rcases load_events W env w req command vin with e | e <;> simp [e]
  unfold runLocked
  simp only []
  split
  · exact hl
  · split_ifs
    · exact hl
    · split
      · simp [hl]
      · simp only [runSession_events]
        split
        · split_ifs
          · simp [hl, hf]
          · simp [hl]
        · simp [hl]

/-- C10. The VIN lock is released exactly once and last: when `lockVIN`
succeeds, the calls of the handler end with `unlockVIN(vin)` and no call before
it is an unlock, so every call on the vehicle facade precedes it; when
`lockVIN` fails the handler makes no call at all, in particular no unlock. -/
theorem unlock_exactly_once_and_last (W : World) (env : Env) (p : Proxy) (acct : Account)
    (w : ResponseWriter) (req : Request) (command vin : String) :
    match env.lockVIN with
    | none =>
      (handleVehicleCommand W env p acct w req command vin).events =
          Event.lockVIN vin :: (runLocked W env p acct w req command vin).events ++
            [Event.unlockVIN vin] ∧
        (∀ v, Event.unlockVIN v ∉
          Event.lockVIN vin :: (runLocked W env p acct w req command vin).events) ∧
        (handleVehicleCommand W env p acct w req command vin).events.count
          (Event.unlockVIN vin) = 1 ∧
        (∀ e ∈ (handleVehicleCommand W env p acct w req command vin).events,
          e.isFacade = true →
            e ∈ Event.lockVIN vin :: (runLocked W env p acct w req command vin).events)
    | some _ => (handleVehicleCommand W env p acct w req command vin).events = [] := by
  cases hlock : env.lockVIN with
  | some err =>
    simp only
    rw [handleVehicleCommand_of_lock_failed W env p acct w req command vin err hlock]
  | none =>
    have hev : (handleVehicleCommand W env p acct w req command vin).events =
        Event.lockVIN vin :: (runLocked W env p acct w req command vin).events ++
          [Event.unlockVIN vin] := by
      unfold handleVehicleCommand
      simp only [hlock]
    have hno : ∀ v, Event.unlockVIN v ∉
        Event.lockVIN vin :: (runLocked W env p acct w req command vin).events := by
      intro v hmem
      rcases List.mem_cons.mp hmem with e | e
      · cases e
      · exact runLocked_events_no_unlock W env p acct w req command vin v e
    refine ⟨hev, hno, ?_, ?_⟩
    · rw [hev, List.count_append, List.count_eq_zero_of_not_mem (hno vin)]
      simp
    · intro e he hfac
      rw [hev] at he
      rcases List.mem_append.mp he with h1 | h1
      · exact h1
      · simp at h1
        rw [h1] at hfac
        simp [Event.isFacade] at hfac

/-! ## Theorems: the request body -/

set_option maxRecDepth 100000 in
/-- C6, evaluated on a body of 602 bytes, above `maxRequestBodyBytes`: the
request is not rejected; the VIN lock is acquired, the vehicle is resolved and
connected, the command runs and the answer has status 200. -/
theorem oversized_body_is_processed :
    oversizedRequest.Body.length = 602 ∧
      maxRequestBodyBytes < oversizedRequest.Body.length ∧
      (ServeHTTP sampleWorld sampleEnv New ResponseWriter.new oversizedRequest).events =
        [Event.lockVIN sampleVIN, Event.GetVehicle sampleVIN, Event.Connect sampleVIN,
          Event.StartSession sampleVIN, Event.Command sampleVIN "lock",
          Event.UpdateCachedSessions sampleVIN, Event.Disconnect sampleVIN,
          Event.unlockVIN sampleVIN] ∧
      (ServeHTTP sampleWorld sampleEnv New ResponseWriter.new oversizedRequest).w.status =
        some 200 :=
  ⟨rfl, by decide, rfl, rfl⟩

/-- C7, refuted on a body that is a lone opening brace: the VIN lock is
acquired and released, and no status and no body are written. -/
theorem malformed_json_takes_lock_and_writes_nothing :
    sampleWorld.Unmarshal malformedRequest.Body = none ∧
      (ServeHTTP sampleWorld sampleEnv New ResponseWriter.new malformedRequest).events =
        [Event.lockVIN sampleVIN, Event.unlockVIN sampleVIN] ∧
      (ServeHTTP sampleWorld sampleEnv New ResponseWriter.new malformedRequest).w.status =
        none ∧
      (ServeHTTP sampleWorld sampleEnv New ResponseWriter.new malformedRequest).w.body.length =
        0 := by
  refine ⟨?_, ?_, ?_, ?_⟩ <;> decide

/-- C7, amended: for an authenticated POST request on the command route with a
VIN of 17 bytes that is not marked, whose body is read, is not empty and does
not decode, `extractCommandAction` fails with an `inet.HttpError` of code 400;
the body is read only once the VIN lock is acquired, and the only calls made
are the acquisition and the release of that lock: no vehicle resolution, no
transport connection, no relay call.  When the lock is not acquired no call is
made and the answer is the one `writeJSONError` gives for status 503. -/
theorem malformed_json_rejected (W : World) (env : Env) (p : Proxy) (req : Request)
    (acct : Account) (vin command : String)
    (ha : getAccount W req = Except.ok acct)
    (hp : req.Path = "/api/1/vehicles/" ++ vin ++ "/command/" ++ command)
    (hlen : len vin = vinLength) (hv : '/' ∉ vin.toList) (hc : '/' ∉ command.toList)
    (hm : p.isNotSupported vin = false)
    (hpost : req.Method = "POST")
    (hread : env.ReadAll = none) (hbody : req.Body.length > 0)
    (hjson : W.Unmarshal req.Body = none) :
    (extractCommandAction W env req command).1 =
        some (GoError.HttpError StatusBadRequest
          "invalid JSON: Error occurred while parsing request parameters") ∧
      match env.lockVIN with
      | none =>
        (ServeHTTP W env p ResponseWriter.new req).events =
          [Event.lockVIN vin, Event.unlockVIN vin]
      | some err =>
        (ServeHTTP W env p ResponseWriter.new req).events = [] ∧
          (ServeHTTP W env p ResponseWriter.new req).w =
            writeJSONError ResponseWriter.new StatusServiceUnavailable (some err) := by
  have hx : extractCommandAction W env req command =
      (some (GoError.HttpError StatusBadRequest
        "invalid JSON: Error occurred while parsing request parameters"),
        { req with Body := [] }) := by
    unfold extractCommandAction
    simp [hread, hbody, hjson]
  refine ⟨by rw [hx], ?_⟩
  rw [ServeHTTP_command_route W env p _ req acct vin command ha hp hlen hv hc hm]
  cases hlock : env.lockVIN with
  | some err =>
    simp only
    unfold serveCommand
    rw [handleVehicleCommand_of_lock_failed W env p acct _ req command vin err hlock]
    have hu : err.isUseRESTAPI = false := by
      unfold Env.lockVIN at hlock
      split_ifs at hlock
      cases hlock
      rfl
    simp [Return.isUseRESTAPI, hu]
  | none =>
    simp only
    unfold serveCommand handleVehicleCommand runLocked loadVehicleAndCommandFromRequest
    simp [hlock, hpost, hx, Return.isUseRESTAPI, GoError.HttpError, GoError.isUseRESTAPI]

/-! ## The theorems with hypotheses, applied to the spec's scenario -/

theorem success_response_shape_witness :
    (getAccount sampleWorld sampleRequest = Except.ok { Host := "fleet-api.example.com" } ∧
      sampleRequest.Path = "/api/1/vehicles/" ++ sampleVIN ++ "/command/" ++ "lock" ∧
      len sampleVIN = vinLength ∧ '/' ∉ sampleVIN.toList ∧ '/' ∉ "lock".toList ∧
      New.isNotSupported sampleVIN = false ∧ sampleRequest.Method = "POST" ∧
      sampleEnv.lockVIN = none ∧
      (extractCommandAction sampleWorld sampleEnv sampleRequest "lock").1 = none ∧
      sampleEnv.GetVehicleCar = true ∧ sampleEnv.GetVehicleErr = none ∧
      sampleEnv.Connect = none ∧ sampleEnv.StartSession = none ∧ sampleEnv.Command = none) ∧
    ((ServeHTTP sampleWorld sampleEnv New ResponseWriter.new sampleRequest).w.status =
        some StatusOK ∧
      (ServeHTTP sampleWorld sampleEnv New ResponseWriter.new sampleRequest).w.body =
        [Chunk.line successBody] ∧
      successBody = "\x7b\"response\":\x7b\"result\":true,\"reason\":\"\"\x7d\x7d") :=
  ⟨⟨rfl, by decide, by decide, by decide, by decide, rfl, rfl, rfl, rfl, rfl, rfl, rfl, rfl,
      rfl⟩,
    success_response_shape sampleWorld sampleEnv New sampleRequest
      { Host := "fleet-api.example.com" } sampleVIN "lock" rfl (by decide) (by decide)
      (by decide) (by decide) rfl rfl rfl rfl rfl rfl rfl rfl rfl⟩

theorem cleanup_before_unlock_witness :
    ({ sampleEnv with Command := some sampleUseRESTAPI } : Env).lockVIN = none ∧
      (loadVehicleAndCommandFromRequest sampleWorld
        { sampleEnv with Command := some sampleUseRESTAPI } ResponseWriter.new sampleRequest
        "lock" sampleVIN).car = true ∧
      (handleVehicleCommand sampleWorld { sampleEnv with Command := some sampleUseRESTAPI } New
        { Host := "fleet-api.example.com" } ResponseWriter.new sampleRequest "lock"
        sampleVIN).events =
        [Event.lockVIN sampleVIN, Event.GetVehicle sampleVIN, Event.Connect sampleVIN,
          Event.StartSession sampleVIN, Event.Command sampleVIN "lock",
          Event.UpdateCachedSessions sampleVIN, Event.Disconnect sampleVIN,
          Event.unlockVIN sampleVIN] :=
  ⟨rfl, rfl,
    cleanup_before_unlock sampleWorld { sampleEnv with Command := some sampleUseRESTAPI } New
      { Host := "fleet-api.example.com" } ResponseWriter.new sampleRequest "lock" sampleVIN
      rfl rfl⟩

theorem malformed_json_rejected_witness :
    (getAccount sampleWorld malformedRequest = Except.ok { Host := "fleet-api.example.com" } ∧
      malformedRequest.Path = "/api/1/vehicles/" ++ sampleVIN ++ "/command/" ++ "lock" ∧
      len sampleVIN = vinLength ∧ '/' ∉ sampleVIN.toList ∧ '/' ∉ "lock".toList ∧
      New.isNotSupported sampleVIN = false ∧ malformedRequest.Method = "POST" ∧
      sampleEnv.ReadAll = none ∧ malformedRequest.Body.length > 0 ∧
      sampleWorld.Unmarshal malformedRequest.Body = none) ∧
    (extractCommandAction sampleWorld sampleEnv malformedRequest "lock").1 =
      some (GoError.HttpError StatusBadRequest
        "invalid JSON: Error occurred while parsing request parameters") ∧
    (ServeHTTP sampleWorld sampleEnv New ResponseWriter.new malformedRequest).events =
      [Event.lockVIN sampleVIN, Event.unlockVIN sampleVIN] :=
  ⟨⟨rfl, by decide, by decide, by decide, by decide, rfl, rfl, rfl, by decide, by decide⟩,
    malformed_json_rejected sampleWorld sampleEnv New malformedRequest
      { Host := "fleet-api.example.com" } sampleVIN "lock" rfl (by decide) (by decide)
      (by decide) (by decide) rfl rfl rfl (by decide) (by decide)⟩

theorem demoted_only_by_protocol_not_supported_witness :
    New.isNotSupported sampleVIN = false ∧
      (handleVehicleCommand sampleWorld
        { sampleEnv with StartSession := some sampleNotSupported } New
        { Host := "fleet-api.example.com" } ResponseWriter.new sampleRequest "lock"
        sampleVIN).p.unsupported ≠ New.unsupported ∧
      (handleVehicleCommand sampleWorld { sampleEnv with Command := some sampleUseRESTAPI } New
        { Host := "fleet-api.example.com" } ResponseWriter.new sampleRequest "lock"
        sampleVIN).p.unsupported = New.unsupported :=
  ⟨rfl,
    (demoted_only_by_protocol_not_supported sampleWorld
      { sampleEnv with StartSession := some sampleNotSupported } New
      { Host := "fleet-api.example.com" } ResponseWriter.new sampleRequest "lock" sampleVIN
      rfl).1.mpr ⟨by decide, sampleNotSupported, rfl, rfl⟩,
    (demoted_only_by_protocol_not_supported sampleWorld
      { sampleEnv with Command := some sampleUseRESTAPI } New
      { Host := "fleet-api.example.com" } ResponseWriter.new sampleRequest "lock" sampleVIN
      rfl).2.2 (by
        rintro ⟨_, e, h, _⟩
        cases h)⟩

/-! ## The handler is called for unmarked VINs only -/

/-- A request that makes a call on the VIN lock or on a vehicle is a request
on the command route whose VIN is not marked, run by lines 233-235. -/
theorem ServeHTTP_local_guard (W : World) (env : Env) (p : Proxy) (w : ResponseWriter)
    (req : Request) (e : Event) (he : e ∈ (ServeHTTP W env p w req).events)
    (hl : e.isLocal = true) :
    ∃ acct, getAccount W req = Except.ok acct ∧
      p.isNotSupported ((Split req.Path '/').getD 4 "") = false ∧
      ServeHTTP W env p w req =
        serveCommand W env p acct w req ((Split req.Path '/').getD 6 "")
          ((Split req.Path '/').getD 4 "") := by
  have hf : ∀ host, e ∉ (forwardRequest W env p host w req).events := by
    intro host hmem
    rw [forwardRequest_events W env p host w req e hmem] at hl
    cases hl
  unfold ServeHTTP at he ⊢
  cases hacct : getAccount W req with
  | error err =>
    rw [hacct] at he
    simp at he
  | ok acct =>
    rw [hacct] at he
    refine ⟨acct, rfl, ?_⟩
    simp only [] at he ⊢
    split_ifs at he ⊢ with h1 h2 h3 h4
    · simp at he
    · exact absurd he (hf _)
    · exact ⟨by simpa using h4, rfl⟩
    · exact absurd he (hf _)
    · exact absurd he (hf _)

/-- The spec's scenario, run: the calls of a successful command, in order. -/
theorem scenario_success_calls :
    (ServeHTTP sampleWorld sampleEnv New ResponseWriter.new sampleRequest).events =
      [Event.lockVIN sampleVIN, Event.GetVehicle sampleVIN, Event.Connect sampleVIN,
        Event.StartSession sampleVIN, Event.Command sampleVIN "lock",
        Event.UpdateCachedSessions sampleVIN, Event.Disconnect sampleVIN,
        Event.unlockVIN sampleVIN] := by
  decide

/-- The command returns `ErrCommandUseRESTAPI`: the cleanup and the unlock run,
then the request goes to the cloud relay with the body already read. -/
theorem scenario_use_rest_api_calls :
    (ServeHTTP sampleWorld { sampleEnv with Command := some sampleUseRESTAPI } New
        ResponseWriter.new { sampleRequest with Body := [123, 125] }).events =
      [Event.lockVIN sampleVIN, Event.GetVehicle sampleVIN, Event.Connect sampleVIN,
        Event.StartSession sampleVIN, Event.Command sampleVIN "lock",
        Event.UpdateCachedSessions sampleVIN, Event.Disconnect sampleVIN,
        Event.unlockVIN sampleVIN,
        Event.Do
          { Method := "POST", Scheme := "https", Host := "fleet-api.example.com",
            Path := "/api/1/vehicles/5YJ3E1EA7PF000001/command/lock", RawQuery := "",
            Header := { entries := [("Authorization", ["Bearer token"]),
              ("X-Forwarded-For", ["203.0.113.7"])] },
            Body := [] }] := by
  decide

/-! ## Theorems: the gates of `ServeHTTP` -/

/-- C11. Malformed VIN: an authenticated request whose path has the shape of
the command route and whose VIN segment is not 17 bytes long is answered with
status 404, and `ServeHTTP` makes no call at all: nothing goes to the cloud
relay, no VIN lock is taken and no vehicle is contacted. -/
theorem malformed_vin_not_found (W : World) (env : Env) (p : Proxy) (req : Request)
    (acct : Account) (vin command : String)
    (ha : getAccount W req = Except.ok acct)
    (hp : req.Path = "/api/1/vehicles/" ++ vin ++ "/command/" ++ command)
    (hv : '/' ∉ vin.toList) (hc : '/' ∉ command.toList)
    (hlen : len vin ≠ vinLength) :
    (ServeHTTP W env p ResponseWriter.new req).w.status = some StatusNotFound ∧
      (ServeHTTP W env p ResponseWriter.new req).events = [] ∧
      (ServeHTTP W env p ResponseWriter.new req).p = p := by
  unfold ServeHTTP
  rw [ha]
  simp only []
  have hpre : HasPrefix req.Path "/api/1/vehicles/" = true := by
    rw [hp, String.append_assoc, String.append_assoc]
    exact HasPrefix_command_route _
  have hsplit := Split_command_route vin command hv
  rw [← hp, splitOnChar_of_not_mem _ _ hc] at hsplit
  have hcmd : String.mk command.toList = command := rfl
  simp only [List.map, hcmd] at hsplit
  rw [if_pos hpre, hsplit]
  simp [hlen]
  rfl

theorem malformed_vin_not_found_witness :
    (getAccount sampleWorld shortVINRequest = Except.ok { Host := "fleet-api.example.com" } ∧
      shortVINRequest.Path = "/api/1/vehicles/" ++ "5YJ3E1EA7PF00000" ++ "/command/" ++ "lock" ∧
      '/' ∉ "5YJ3E1EA7PF00000".toList ∧ '/' ∉ "lock".toList ∧
      len "5YJ3E1EA7PF00000" ≠ vinLength) ∧
    ((ServeHTTP sampleWorld sampleEnv New ResponseWriter.new shortVINRequest).w.status =
        some StatusNotFound ∧
      (ServeHTTP sampleWorld sampleEnv New ResponseWriter.new shortVINRequest).events = [] ∧
      (ServeHTTP sampleWorld sampleEnv New ResponseWriter.new shortVINRequest).p = New) :=
  ⟨⟨rfl, by decide, by decide, by decide, by decide⟩,
    malformed_vin_not_found sampleWorld sampleEnv New shortVINRequest
      { Host := "fleet-api.example.com" } "5YJ3E1EA7PF00000" "lock" rfl (by decide) (by decide)
      (by decide) (by decide)⟩

/-- C12. Authentication gate: when the `Authorization` header does not start
with `Bearer ` (a missing header included), or when `account.New` fails with an
error that is not an `inet.HttpError`, `ServeHTTP` answers with status 403 and
makes no call at all, whatever the path and the method: nothing goes to the
cloud relay, no VIN lock is taken and no vehicle is contacted. -/
theorem authentication_gate (W : World) (env : Env) (p : Proxy) (req : Request)
    (h : CutPrefix (req.Header.Get "Authorization") "Bearer " = none ∨
      ∃ token err, CutPrefix (req.Header.Get "Authorization") "Bearer " = some token ∧
        W.accountNew token proxyProtocolVersion = Except.error err ∧ err.httpCode = none) :
    (ServeHTTP W env p ResponseWriter.new req).w.status = some StatusForbidden ∧
      (ServeHTTP W env p ResponseWriter.new req).events = [] ∧
      (ServeHTTP W env p ResponseWriter.new req).p = p := by
  have key : ∃ err, getAccount W req = Except.error err ∧ err.httpCode = none := by
    rcases h with h | ⟨token, err, h1, h2, h3⟩
    · exact ⟨_, by unfold getAccount; rw [h], rfl⟩
    · exact ⟨err, by unfold getAccount; rw [h1]; exact h2, h3⟩
  obtain ⟨err, he, hc⟩ := key
  unfold ServeHTTP
  rw [he]
  refine ⟨?_, rfl, rfl⟩
  simp only [writeJSONError, hc]
  split_ifs <;> rfl

theorem authentication_gate_witness :
    (CutPrefix (anonymousRequest.Header.Get "Authorization") "Bearer " = none ∨
      ∃ token err,
        CutPrefix (anonymousRequest.Header.Get "Authorization") "Bearer " = some token ∧
        sampleWorld.accountNew token proxyProtocolVersion = Except.error err ∧
        err.httpCode = none) ∧
    ((ServeHTTP sampleWorld sampleEnv New ResponseWriter.new anonymousRequest).w.status =
        some StatusForbidden ∧
      (ServeHTTP sampleWorld sampleEnv New ResponseWriter.new anonymousRequest).events = [] ∧
      (ServeHTTP sampleWorld sampleEnv New ResponseWriter.new anonymousRequest).p = New) :=
  ⟨Or.inl (by decide),
    authentication_gate sampleWorld sampleEnv New anonymousRequest (Or.inl (by decide))⟩

/-! ## Theorems: the relayed request -/

/-- C13, evaluated on a command with the two-byte body `{}`: when the command
returns `ErrCommandUseRESTAPI`, and when `StartSession` returns
`ErrProtocolNotSupported`, the request sent to the cloud relay has the client's
method but an empty body, because `extractCommandAction` has read the body
stream to its end before `forwardRequest` passes it on. -/
theorem relay_fallback_sends_empty_body :
    bodyRequest.Method = "POST" ∧ bodyRequest.Body = [123, 125] ∧
      (ServeHTTP sampleWorld { sampleEnv with Command := some sampleUseRESTAPI } New
          ResponseWriter.new bodyRequest).events =
        [Event.lockVIN sampleVIN, Event.GetVehicle sampleVIN, Event.Connect sampleVIN,
          Event.StartSession sampleVIN, Event.Command sampleVIN "lock",
          Event.UpdateCachedSessions sampleVIN, Event.Disconnect sampleVIN,
          Event.unlockVIN sampleVIN,
          Event.Do
            { Method := "POST", Scheme := "https", Host := "fleet-api.example.com",
              Path := "/api/1/vehicles/5YJ3E1EA7PF000001/command/lock", RawQuery := "",
              Header := { entries := [("Authorization", ["Bearer token"]),
                ("X-Forwarded-For", ["203.0.113.7"])] },
              Body := [] }] ∧
      (ServeHTTP sampleWorld { sampleEnv with StartSession := some sampleNotSupported } New
          ResponseWriter.new bodyRequest).events =
        [Event.lockVIN sampleVIN, Event.GetVehicle sampleVIN, Event.Connect sampleVIN,
          Event.StartSession sampleVIN,
          Event.Do
            { Method := "POST", Scheme := "https", Host := "fleet-api.example.com",
              Path := "/api/1/vehicles/5YJ3E1EA7PF000001/command/lock", RawQuery := "",
              Header := { entries := [("Authorization", ["Bearer token"]),
                ("X-Forwarded-For", ["203.0.113.7"])] },
              Body := [] },
          Event.Disconnect sampleVIN, Event.unlockVIN sampleVIN] := by
  refine ⟨?_, ?_, ?_, ?_⟩ <;> decide

/-- The sibling path: a request for a marked VIN goes to the cloud relay with
its body intact. -/
theorem direct_relay_keeps_body :
    (ServeHTTP sampleWorld sampleEnv (New.markUnsupportedVIN sampleVIN) ResponseWriter.new
        bodyRequest).events =
      [Event.Do
        { Method := "POST", Scheme := "https", Host := "fleet-api.example.com",
          Path := "/api/1/vehicles/5YJ3E1EA7PF000001/command/lock", RawQuery := "",
          Header := { entries := [("Authorization", ["Bearer token"]),
            ("X-Forwarded-For", ["203.0.113.7"])] },
          Body := [123, 125] }] := by
  decide

/-! ### The header map -/

theorem lookup_filter_ne (l : List (String × List String)) (k key : String) (h : key ≠ k) :
    (l.filter (fun kv => kv.1 ≠ k)).lookup key = l.lookup key := by
  induction l with
  | nil => rfl
  | cons a l ih =>
    obtain ⟨ak, av⟩ := a
    by_cases hak : ak = k
    · have hne : (key == ak) = false := by
        rw [hak]
        exact beq_false_of_ne h
      rw [List.filter_cons_of_neg (by simp [hak]), List.lookup_cons, hne, ih]
    · rw [List.filter_cons_of_pos (by simp [hak]), List.lookup_cons, List.lookup_cons, ih]

theorem lookup_filter_self (l : List (String × List String)) (k : String) :
    (l.filter (fun kv => kv.1 ≠ k)).lookup k = none := by
  induction l with
  | nil => rfl
  | cons a l ih =>
    obtain ⟨ak, av⟩ := a
    by_cases hak : ak = k
    · rw [List.filter_cons_of_neg (by simp [hak]), ih]
    · have hne : (k == ak) = false := beq_false_of_ne (fun e => hak e.symm)
      rw [List.filter_cons_of_pos (by simp [hak]), List.lookup_cons, hne, ih]

theorem lookup_append_single (l : List (String × List String)) (k key : String)
    (vs : List String) :
    (l ++ [(k, vs)]).lookup key =
      match l.lookup key with
      | some v => some v
      | none => if key = k then some vs else none := by
  induction l with
  | nil =>
    by_cases hk : key = k
    · simp [List.lookup_cons, hk]
    · have hne : (key == k) = false := beq_false_of_ne hk
      simp [List.lookup_cons, hk, hne]
  | cons a l ih =>
    obtain ⟨ak, av⟩ := a
    rw [List.cons_append, List.lookup_cons, List.lookup_cons, ih]
    cases (key == ak) <;> rfl

theorem Values_Del_self (h : Header) (k : String) : (h.Del k).Values k = [] := by
  unfold Header.Values Header.Del
  simp only [lookup_filter_self]

theorem Values_Del_ne (h : Header) (k key : String) (hne : key ≠ k) :
    (h.Del k).Values key = h.Values key := by
  unfold Header.Values Header.Del
  simp only [lookup_filter_ne _ _ _ hne]

theorem Values_Add_self (h : Header) (k v : String) :
    (h.Add k v).Values k = h.Values k ++ [v] := by
  unfold Header.Add
  unfold Header.Values
  simp only [Header.Del, lookup_append_single, lookup_filter_self, if_true]

theorem Values_Add_ne (h : Header) (k v key : String) (hne : key ≠ k) :
    (h.Add k v).Values key = h.Values key := by
  unfold Header.Add
  unfold Header.Values
  simp only [Header.Del, lookup_append_single, lookup_filter_ne _ _ _ hne, if_neg hne]
  cases List.lookup key h.entries <;> rfl

theorem Values_Set_self (h : Header) (k v : String) : (h.Set k v).Values k = [v] := by
  unfold Header.Set Header.Values
  simp only [Header.Del, lookup_append_single, lookup_filter_self, if_true]

theorem Values_Set_ne (h : Header) (k v key : String) (hne : key ≠ k) :
    (h.Set k v).Values key = h.Values key := by
  unfold Header.Set Header.Values
  simp only [Header.Del, lookup_append_single, lookup_filter_ne _ _ _ hne, if_neg hne]
  cases List.lookup key h.entries <;> rfl

/-- The values of a header after a list of keys is deleted. -/
theorem Values_foldl_Del (ks : List String) (key : String) :
    ∀ h : Header, (ks.foldl Header.Del h).Values key = if key ∈ ks then [] else h.Values key := by
  induction ks with
  | nil => intro h; simp
  | cons k ks ih =>
    intro h
    rw [List.foldl_cons, ih]
    by_cases hk : key = k
    · subst hk
      simp [Values_Del_self]
    · by_cases hks : key ∈ ks
      · simp [hks]
      · simp [hks, hk, Values_Del_ne _ _ _ hk]

/-- The request that `forwardRequest` sends when the outbound request can be
built and the remote address parses. -/
theorem forwardRequest_proxyReq (W : World) (env : Env) (p : Proxy) (host : String)
    (w : ResponseWriter) (req : Request) (clientIP port : String)
    (hn : env.NewRequest = none)
    (hs : W.SplitHostPort req.RemoteAddr = Except.ok (clientIP, port)) :
    (forwardRequest W env p host w req).events =
      [Event.Do
        { Method := req.Method, Scheme := "https", Host := host, Path := req.Path,
          RawQuery := req.RawQuery,
          Header :=
            if (req.Header.Values "X-Forwarded-For").length = 0 then
              (connectionHeaders.foldl Header.Del req.Header).Add "X-Forwarded-For" clientIP
            else
              (connectionHeaders.foldl Header.Del req.Header).Set "X-Forwarded-For"
                (String.intercalate ", " (req.Header.Values "X-Forwarded-For" ++ [clientIP])),
          Body := req.Body }] := by
  unfold forwardRequest
  simp only [hn, hs]
  split <;> rfl

/-- C14. Forwarded headers equal the reference definition: when
`forwardRequest` relays a request whose `RemoteAddr` parses as `clientIP` and a
port, it sends exactly one request to the cloud relay, and for every header
name the values in that request are those of `relayedHeaderSpec`: none for the
five per-hop headers, one flattened `X-Forwarded-For` value ending in
`clientIP`, and the client's values for every other header. -/
theorem forwarded_headers_match_reference (W : World) (env : Env) (p : Proxy) (host : String)
    (w : ResponseWriter) (req : Request) (clientIP port : String)
    (hn : env.NewRequest = none)
    (hs : W.SplitHostPort req.RemoteAddr = Except.ok (clientIP, port)) :
    ∃ proxyReq, (forwardRequest W env p host w req).events = [Event.Do proxyReq] ∧
      ∀ key, proxyReq.Header.Values key = relayedHeaderSpec req.Header clientIP key := by
  refine ⟨_, forwardRequest_proxyReq W env p host w req clientIP port hn hs, ?_⟩
  intro key
  have hx : (connectionHeaders.foldl Header.Del req.Header).Values "X-Forwarded-For" =
      req.Header.Values "X-Forwarded-For" := by
    rw [Values_foldl_Del, if_neg (by decide)]
  unfold relayedHeaderSpec
  simp only []
  by_cases hhop : key ∈ connectionHeaders
  · have hhop2 : key = "Proxy-Connection" ∨ key = "Keep-Alive" ∨ key = "Transfer-Encoding" ∨
        key = "Te" ∨ key = "Upgrade" := by
      simpa [connectionHeaders] using hhop
    have hkx : key ≠ "X-Forwarded-For" := by
      intro e
      rw [e] at hhop
      exact absurd hhop (by decide)
    rw [if_pos hhop2]
    split_ifs
    · rw [Values_Add_ne _ _ _ _ hkx, Values_foldl_Del, if_pos hhop]
    · rw [Values_Set_ne _ _ _ _ hkx, Values_foldl_Del, if_pos hhop]
  · have hhop2 : ¬ (key = "Proxy-Connection" ∨ key = "Keep-Alive" ∨
        key = "Transfer-Encoding" ∨ key = "Te" ∨ key = "Upgrade") := by
      simpa [connectionHeaders] using hhop
    rw [if_neg hhop2]
    by_cases hkx : key = "X-Forwarded-For"
    · rw [if_pos hkx, hkx]
      cases hprev : req.Header.Values "X-Forwarded-For" with
      | nil =>
        simp only [List.length_nil, if_true]
        rw [Values_Add_self, hx, hprev]
        rfl
      | cons v vs =>
        simp only [List.length_cons, Nat.succ_ne_zero, if_false, Nat.add_one_ne_zero]
        rw [Values_Set_self]
    · rw [if_neg hkx]
      split_ifs
      · rw [Values_Add_ne _ _ _ _ hkx, Values_foldl_Del, if_neg hhop]
      · rw [Values_Set_ne _ _ _ _ hkx, Values_foldl_Del, if_neg hhop]

theorem forwarded_headers_match_reference_witness :
    (sampleEnv.NewRequest = none ∧
      sampleWorld.SplitHostPort hopRequest.RemoteAddr = Except.ok ("203.0.113.7", "4711")) ∧
    ∃ proxyReq,
      (forwardRequest sampleWorld sampleEnv New "fleet-api.example.com" ResponseWriter.new
        hopRequest).events = [Event.Do proxyReq] ∧
      ∀ key, proxyReq.Header.Values key =
        relayedHeaderSpec hopRequest.Header "203.0.113.7" key :=
  ⟨⟨rfl, rfl⟩,
    forwarded_headers_match_reference sampleWorld sampleEnv New "fleet-api.example.com"
      ResponseWriter.new hopRequest "203.0.113.7" "4711" rfl rfl⟩

/-- The headers relayed for a request with per-hop headers and two
`X-Forwarded-For` values: the per-hop headers are gone and the forwarded-for
values are flattened, the client's address last. -/
theorem scenario_relayed_headers :
    (ServeHTTP sampleWorld sampleEnv New ResponseWriter.new hopRequest).events =
      [Event.Do
        { Method := "POST", Scheme := "https", Host := "fleet-api.example.com",
          Path := "/api/1/vehicles", RawQuery := "",
          Header := { entries := [("Authorization", ["Bearer token"]),
            ("X-Forwarded-For", ["198.51.100.1, 198.51.100.2, 203.0.113.7"])] },
          Body := [] }] ∧
      relayedHeaderSpec hopRequest.Header "203.0.113.7" "X-Forwarded-For" =
        ["198.51.100.1, 198.51.100.2, 203.0.113.7"] ∧
      relayedHeaderSpec hopRequest.Header "203.0.113.7" "Keep-Alive" = [] ∧
      relayedHeaderSpec hopRequest.Header "203.0.113.7" "Authorization" = ["Bearer token"] := by
  refine ⟨?_, ?_, ?_, ?_⟩ <;> decide

end VehicleCommand
